import Mathlib

/-!
Shallow embedding of `mimic3_tts/tts.py` (the Mimic 3 text-to-speech session
orchestrator): the settings object, the directive buffer and its coalescing
flush (`end_utterance`), synthesis dispatch (`_speak_sentence_phonemes`),
voice resolution and caching (`_get_or_load_voice`), lazy download
(`_download_voice`), the voice/speaker setters and the break/mark directives.

Modelling conventions:
  * Python `Optional[T]` becomes `Option T`; Python `str` becomes `String`.
  * Filesystem paths (`pathlib.Path`) become lists of path segments
    (`List String`); `Path.name` is the last segment and `Path.parent.name`
    the one before it.
  * Python `float` settings fields (`length_scale`, `noise_scale`, `noise_w`)
    are only ever compared for equality and passed through to the external
    engine by this core, so they are modelled as exact rationals.
  * The one place the core itself performs float arithmetic — the sample
    count of `add_break` — is modelled with IEEE-754 binary64
    round-to-nearest-even (`round64`) over exact rationals.
  * External collaborators (the filesystem, the voice catalog enumeration
    `get_voices` which is pure I/O over the filesystem and static registry,
    the gruut/onnx linguistic and voice engines, the download transfer, and
    the voice config loader) are modelled as fields of an `Env` record.
  * Code that raises becomes `Except TtsError`; methods that mutate
    `self` take and return an explicit `Mimic3State`.
  * Python object identity of loaded `Mimic3Voice` instances is modelled by
    an allocation counter `nextVoiceId` in the state: each fresh
    `load_from_directory` call produces a handle with a fresh `id`, so
    "identical handle" and "no second load" are observable propositions.
-/

/-- Python `SPEAKER_TYPE = typing.Union[str, int]` from `voice.py`. -/
abbrev SpeakerType := String ⊕ Int

/-- Python `x or y` for `x : Optional[str]`: both `None` and `""` are falsy. -/
def pyOr (x : Option String) (y : String) : String :=
  match x with
  | some s => if s = "" then y else s
  | none => y

/-- Python `x or y` for `x : str`: the empty string is falsy. -/
def pyOrS (x y : String) : String :=
  if x = "" then y else x

/-- Python `str.endswith`: suffix test on the character sequence. -/
def strEndsWith (s suf : String) : Bool :=
  suf.data.isSuffixOf s.data

/-- Python `c in s` for a single character `c`. -/
def strContainsChar (s : String) (c : Char) : Bool :=
  s.data.contains c

/-- Helper for Python `s.split(sep, maxsplit=1)`: split a character list at
the first occurrence of `c`; `none` when `c` does not occur. -/
def splitFirstChar (c : Char) : List Char → Option (List Char × List Char)
  | [] => none
  | x :: xs =>
    if x = c then some ([], xs)
    else (splitFirstChar c xs).map (fun p => (x :: p.1, p.2))

/-- Python `s.split("#", maxsplit=1)` unpacked as (before, after); when there
is no `#` the second component is `""` (that case is only used guarded by a
`"#" in s` test, mirroring the source). -/
def splitOnFirstHash (s : String) : String × String :=
  match splitFirstChar '#' s.data with
  | none => (s, "")
  | some p => (String.mk p.1, String.mk p.2)

/-- Python `s.split("/", maxsplit=1)` unpacked into two variables
(`voice_lang, voice_name = voice_key.split("/", maxsplit=1)`): `none` models
the `ValueError` raised when `s` contains no `/`. -/
def splitOnFirstSlash (s : String) : Option (String × String) :=
  (splitFirstChar '/' s.data).map (fun p => (String.mk p.1, String.mk p.2))

/-- Python `s.split("/")` (all components) on a character list. -/
def splitAllChar (c : Char) : List Char → List (List Char)
  | [] => [[]]
  | x :: xs =>
    let r := splitAllChar c xs
    if x = c then [] :: r
    else
      match r with
      | [] => [[x]]
      | h :: t => (x :: h) :: t

/-- Path segments of a voice key: `Path(dir) / voice_key` appends one segment
per `/`-separated component of the key. -/
def keySegments (s : String) : List String :=
  (splitAllChar '/' s.data).map String.mk

/-- Python `str.format(fmt, key=.., lang=.., name=..)` for the voice URL
template, which may contain `{key}`, `{lang}` and `{name}`. -/
def formatVoiceUrl (fmt key lang name : String) : String :=
  ((fmt.replace "{key}" key).replace "{lang}" lang).replace "{name}" name

/-- Modelled from the spec: the process-wide default voice constant
`DEFAULT_VOICE` imported from `const.py` (a module outside the embedded
source); the spec only requires a fixed `<lang>/<name>` voice key. -/
def DEFAULT_VOICE : String := "en_US/cmu-arctic_low"

/-- Modelled from the spec: `DEFAULT_VOICES_URL_FORMAT` from `const.py` (not
in the embedded source) — a URL template that may contain `{key}`, `{lang}`
and `{name}`. -/
def DEFAULT_VOICES_URL_FORMAT : String :=
  "https://github.com/MycroftAI/mimic3-voices/raw/master/voices/{key}"

/-- Modelled from the spec: `DEFAULT_VOICES_DOWNLOAD_DIR` from `const.py`
(not in the embedded source) — the default directory voices are downloaded
to, as path segments. -/
def DEFAULT_VOICES_DOWNLOAD_DIR : List String :=
  ["home", "user", ".local", "share", "mimic3", "voices"]

/-- `Mimic3Settings` dataclass: settings for the Mimic 3 text to speech
system.  Dataclass equality is structural over every field, which
`DecidableEq` provides. -/
structure Mimic3Settings where
  voice : Option String := none
  language : Option String := none
  voices_directories : Option (List (List String)) := none
  voices_url_format : Option String := some DEFAULT_VOICES_URL_FORMAT
  speaker : Option SpeakerType := none
  length_scale : Option ℚ := none
  noise_scale : Option ℚ := none
  noise_w : Option ℚ := none
  text_language : Option String := none
  sample_rate : Nat := 22050
  voices_download_dir : List String := DEFAULT_VOICES_DOWNLOAD_DIR
  no_download : Bool := false
deriving DecidableEq

/-- `Mimic3Phonemes` dataclass: pending task to synthesize audio from
phonemes with specific settings. -/
structure Mimic3Phonemes where
  current_settings : Mimic3Settings
  phonemes : List (List String) := []
  is_utterance : Bool := true
deriving DecidableEq

/-- Finalized results from `opentts_abc`: `AudioResult` (sample rate, raw
bytes, sample width in bytes, channel count) and `MarkResult` (a name).
Audio bytes are modelled as a list of byte values. -/
inductive BaseResult where
  | audio (sample_rate_hz : Nat) (audio_bytes : List Nat)
      (sample_width_bytes : Nat) (num_channels : Nat)
  | mark (name : String)
deriving DecidableEq

/-- One element of `self._results : List[Union[BaseResult, Mimic3Phonemes]]`;
`end_utterance` discriminates with `isinstance(result, Mimic3Phonemes)`. -/
inductive BufferEntry where
  | result (r : BaseResult)
  | phonemes (p : Mimic3Phonemes)
deriving DecidableEq

/-- A loaded `Mimic3Voice` handle: `id` models Python object identity (fresh
per `load_from_directory` call), `model_dir` the on-disk directory the voice
was loaded from. -/
structure Mimic3Voice where
  id : Nat
  model_dir : List String
deriving DecidableEq

/-- The exceptions that can abort resolution, download or a flush:
`VoiceNotFoundError` (message `"Voice not found: {voice}"`), the
`ValueError` from unpacking `voice_key.split("/", maxsplit=1)`, the
`KeyError` from `_VOICES[voice_key]`, a raising `download_voice` transfer, a
failing voice config load inside `load_from_directory`, and failures of the
external phoneme/audio engine. -/
inductive TtsError where
  | voiceNotFound (key : String)
  | valueError (key : String)
  | keyError (key : String)
  | transferFailure (msg : String)
  | configFailure (msg : String)
  | synthesisFailure (msg : String)
deriving DecidableEq

/-- The exception message carried by each error; `VoiceNotFoundError.__init__`
formats `f"Voice not found: {voice}"`. -/
def errorMessage : TtsError → String
  | .voiceNotFound key => "Voice not found: " ++ key
  | .valueError key => "not enough values to unpack: " ++ key
  | .keyError key => key
  | .transferFailure msg => msg
  | .configFailure msg => msg
  | .synthesisFailure msg => msg

/-- A voice descriptor yielded by `get_voices` (the `Voice` record from
`opentts_abc`, reduced to the fields resolution reads: `key` and
`location`). -/
structure VoiceDesc where
  key : String
  location : List String
deriving DecidableEq

/-- The external collaborators of the orchestration core, as one record:
the voice catalog enumeration (`get_voices`, lines 150–247, whose output is
filesystem/registry I/O), the filesystem `is_dir` test, the static registry
`_VOICES` (from the generated `_resources` module, modelled from the spec as
key ↦ declared file set), the `download_voice` transfer collaborator
(raises on failure), the voice config loader used by
`Mimic3Voice.load_from_directory`, and the per-voice linguistic/audio
engine operations, each keyed by the voice's model directory. -/
structure Env where
  getVoices : List VoiceDesc
  isDir : List String → Bool
  registry : List (String × List String)
  transfer : String → String → List String → List String → Except String Unit
  loadVoice : List String → Except String Unit
  voiceSampleRate : List String → Nat
  text_to_phonemes : List String → String → Option String → List (List (List String))
  word_to_phonemes : List String → String → Option String → Option String → List String
  say_as_to_phonemes : List String → String → String → Option String → Option String → List (List String)
  graphemes : String → List String
  phonemes_to_ids : List String → List (List String) → Except String (List Nat)
  ids_to_audio : List String → List Nat → Option SpeakerType → Option ℚ → Option ℚ →
    Option ℚ → Except String (List Int)

/-- The mutable state of a `Mimic3TextToSpeechSystem` instance:
`self.settings`, `self._results`, `self._loaded_voices` (an association
list modelling the dict), plus the allocation counter for voice-handle
identity. -/
structure Mimic3State where
  settings : Mimic3Settings
  results : List BufferEntry := []
  loaded_voices : List (String × Mimic3Voice) := []
  nextVoiceId : Nat := 0
deriving DecidableEq

/-- Dict read `self._loaded_voices.get(key)`. -/
def lookupVoice : List (String × Mimic3Voice) → String → Option Mimic3Voice
  | [], _ => none
  | (k', v') :: rest, k => if k' = k then some v' else lookupVoice rest k

/-- Dict write `self._loaded_voices[key] = voice` (overwrites an existing
binding, otherwise appends). -/
def insertVoice : List (String × Mimic3Voice) → String → Mimic3Voice →
    List (String × Mimic3Voice)
  | [], k, v => [(k, v)]
  | (k', v') :: rest, k, v =>
    if k' = k then (k, v) :: rest else (k', v') :: insertVoice rest k v

/-- Registry read `_VOICES.get(key)` / `_VOICES[key]`. -/
def lookupRegistry : List (String × List String) → String → Option (List String)
  | [], _ => none
  | (k', fs) :: rest, k => if k' = k then some fs else lookupRegistry rest k

/-- `Path.name`: the final path segment. -/
def pathName (p : List String) : String := p.getLastD ""

/-- `Path.parent.name`: the segment before the final one. -/
def pathParentName (p : List String) : String := p.dropLast.getLastD ""

/-- The canonical key `f"{voice_lang}/{voice_name}"` derived from a model
directory (`model_dir.parent.name` / `model_dir.name`, lines 448–450). -/
def canonicalKeyOf (p : List String) : String :=
  pathParentName p ++ "/" ++ pathName p

/-- `_download_voice` (lines 469–488): unpack
`voice_lang, voice_name = voice_key.split("/", maxsplit=1)` (`ValueError`
when there is no `/`), look the key up in `_VOICES` (`KeyError` when
absent), format the URL template, call the raising `download_voice`
transfer collaborator, and return the expected directory
`Path(voices_download_dir) / voice_key`. -/
def _download_voice (env : Env) (st : Mimic3State) (voice_key : String) :
    Except TtsError (List String) :=
  match splitOnFirstSlash voice_key with
  | none => .error (.valueError voice_key)
  | some (voice_lang, voice_name) =>
    match lookupRegistry env.registry voice_key with
    | none => .error (.keyError voice_key)
    | some voice_files =>
      let voice_url := formatVoiceUrl
        (pyOr st.settings.voices_url_format DEFAULT_VOICES_URL_FORMAT)
        voice_key voice_lang voice_name
      match env.transfer voice_key voice_url voice_files
          st.settings.voices_download_dir with
      | .error e => .error (.transferFailure e)
      | .ok _ => .ok (st.settings.voices_download_dir ++ keySegments voice_key)

/-- The scan loop of `_get_or_load_voice` (lines 431–443): walk the catalog
in enumeration order; at the first descriptor whose key ends with the
requested key, take its location; when that is not an existing directory
and downloading is not disabled, call `_download_voice` (whose raised
errors propagate); when the (possibly downloaded) directory exists, stop
with it, otherwise keep scanning.  Returns `.ok none` when the scan
exhausts the catalog without a hit (`model_dir` stays `None`). -/
def findModelDir (env : Env) (st : Mimic3State) (voice_key : String) :
    List VoiceDesc → Except TtsError (Option (List String))
  | [] => .ok none
  | d :: rest =>
    if strEndsWith d.key voice_key then
      if ¬ env.isDir d.location ∧ ¬ st.settings.no_download then
        match _download_voice env st voice_key with
        | .error e => .error e
        | .ok downloaded =>
          if env.isDir downloaded then .ok (some downloaded)
          else findModelDir env st voice_key rest
      else
        if env.isDir d.location then .ok (some d.location)
        else findModelDir env st voice_key rest
    else findModelDir env st voice_key rest

/-- `_get_or_load_voice` (lines 424–467): exact cache hit, else scan the
catalog for a suffix match; `VoiceNotFoundError` when nothing is found;
derive the canonical key from the model directory; alias to an existing
handle cached under the canonical key, or load a fresh handle (config
load may fail) and cache it under both the requested and canonical keys. -/
def _get_or_load_voice (env : Env) (st : Mimic3State) (voice_key : String) :
    Except TtsError Mimic3Voice × Mimic3State :=
  match lookupVoice st.loaded_voices voice_key with
  | some existing_voice => (.ok existing_voice, st)
  | none =>
    match findModelDir env st voice_key env.getVoices with
    | .error e => (.error e, st)
    | .ok none => (.error (.voiceNotFound voice_key), st)
    | .ok (some model_dir) =>
      let canonical_key := canonicalKeyOf model_dir
      match lookupVoice st.loaded_voices canonical_key with
      | some existing_voice =>
        (.ok existing_voice,
         { st with loaded_voices :=
            insertVoice st.loaded_voices voice_key existing_voice })
      | none =>
        match env.loadVoice model_dir with
        | .error e => (.error (.configFailure e), st)
        | .ok _ =>
          let voice : Mimic3Voice := { id := st.nextVoiceId, model_dir := model_dir }
          (.ok voice,
           { st with
              nextVoiceId := st.nextVoiceId + 1,
              loaded_voices :=
                insertVoice (insertVoice st.loaded_voices voice_key voice)
                  canonical_key voice })

/-- `audio.tobytes()` for an int16 sample buffer: two little-endian bytes
per sample (Python-style nonnegative remainders). -/
def int16leBytes (samples : List Int) : List Nat :=
  samples.flatMap (fun s => [(s.emod 65536).toNat % 256, (s.emod 65536).toNat / 256])

/-- `_speak_sentence_phonemes` (lines 395–422): pick the snapshot settings
(`settings or self.settings`; a dataclass instance is always truthy, so the
fallback only fires for `None`), resolve the voice
(`settings.voice or self.voice`, where the `voice` property is
`self.settings.voice or DEFAULT_VOICE`), convert phonemes to ids, run the
engine with the snapshot's overrides, and wrap the samples as 16-bit mono
at the voice's own sample rate. -/
def _speak_sentence_phonemes (env : Env) (st : Mimic3State)
    (sent_phonemes : List (List String)) (settingsOpt : Option Mimic3Settings) :
    Except TtsError BaseResult × Mimic3State :=
  let settings := settingsOpt.getD st.settings
  let voice_key := pyOr settings.voice (pyOr st.settings.voice DEFAULT_VOICE)
  match _get_or_load_voice env st voice_key with
  | (.error e, st') => (.error e, st')
  | (.ok voice, st') =>
    match env.phonemes_to_ids voice.model_dir sent_phonemes with
    | .error e => (.error (.synthesisFailure e), st')
    | .ok sent_phoneme_ids =>
      match env.ids_to_audio voice.model_dir sent_phoneme_ids settings.speaker
          settings.length_scale settings.noise_scale settings.noise_w with
      | .error e => (.error (.synthesisFailure e), st')
      | .ok audio =>
        (.ok (.audio (env.voiceSampleRate voice.model_dir) (int16leBytes audio) 2 1),
         st')

/-- The `voice` property setter (lines 259–271): clear the speaker when the
new value differs from the stored one, store `new_voice or DEFAULT_VOICE`,
then split a `"voice#speaker"` value on the first `#`, storing the prefix
as the voice and the suffix as the speaker. -/
def set_voice (st : Mimic3State) (new_voice : String) : Mimic3State :=
  let st1 :=
    if some new_voice ≠ st.settings.voice then
      { st with settings := { st.settings with speaker := none } }
    else st
  let v := pyOrS new_voice DEFAULT_VOICE
  let st2 := { st1 with settings := { st1.settings with voice := some v } }
  if strContainsChar v '#' then
    let pr := splitOnFirstHash v
    { st2 with settings :=
        { st2.settings with voice := some pr.1, speaker := some (Sum.inl pr.2) } }
  else st2

/-- `speak_text` (lines 293–303): resolve the current voice, convert the
text to per-sentence phoneme lists, and append one pending `Mimic3Phonemes`
entry per sentence, each carrying `deepcopy(self.settings)` (a value copy)
and `is_utterance=False`. -/
def speak_text (env : Env) (st : Mimic3State) (text : String)
    (text_language : Option String) : Except TtsError Unit × Mimic3State :=
  match _get_or_load_voice env st (pyOr st.settings.voice DEFAULT_VOICE) with
  | (.error e, st') => (.error e, st')
  | (.ok voice, st') =>
    let entries := (env.text_to_phonemes voice.model_dir text text_language).map
      (fun sent_phonemes => BufferEntry.phonemes
        { current_settings := st'.settings
          phonemes := sent_phonemes
          is_utterance := false })
    (.ok (), { st' with results := st'.results ++ entries })

/-- The token variants accepted by `speak_tokens` (`Word`, `Phonemes` and
`SayAs` from `opentts_abc`, reduced to the fields the source reads). -/
inductive BaseToken where
  | word (text : String) (role : Option String)
  | phonemesTok (text : String)
  | sayAs (text : String) (interpret_as : String) (fmt : Option String)
deriving DecidableEq

/-- Python `str.split()` with no arguments: split on whitespace runs,
dropping empty pieces. -/
def pySplitWhitespace (s : String) : List String :=
  (s.split (fun c => c.isWhitespace)).filter (fun w => w ≠ "")

/-- The token dispatch of `speak_tokens` (lines 314–333): a `Word`
contributes one phoneme group from the voice, a `Phonemes` token one group
(whitespace-split when it contains a space, else its graphemes), and a
`SayAs` token the groups produced by the voice. -/
def tokenPhonemeGroups (env : Env) (voice : Mimic3Voice)
    (text_language : Option String) : BaseToken → List (List String)
  | .word text role => [env.word_to_phonemes voice.model_dir text role text_language]
  | .phonemesTok text =>
    let phoneme_str := text.trim
    if strContainsChar phoneme_str ' ' then [pySplitWhitespace phoneme_str]
    else [env.graphemes phoneme_str]
  | .sayAs text interpret_as fmt =>
    env.say_as_to_phonemes voice.model_dir text interpret_as fmt text_language

/-- `speak_tokens` (lines 305–342): resolve the current voice, accumulate
phoneme groups over the tokens, and, when non-empty, append a single
pending `Mimic3Phonemes` entry carrying `deepcopy(self.settings)` and
`is_utterance=False`. -/
def speak_tokens (env : Env) (st : Mimic3State) (tokens : List BaseToken)
    (text_language : Option String) : Except TtsError Unit × Mimic3State :=
  match _get_or_load_voice env st (pyOr st.settings.voice DEFAULT_VOICE) with
  | (.error e, st') => (.error e, st')
  | (.ok voice, st') =>
    let token_phonemes :=
      tokens.flatMap (tokenPhonemeGroups env voice text_language)
    if token_phonemes = [] then (.ok (), st')
    else
      (.ok (), { st' with results := st'.results ++
        [BufferEntry.phonemes
          { current_settings := st'.settings
            phonemes := token_phonemes
            is_utterance := false }] })

/-- Python `int(q)` on a rational value: truncation toward zero (T-division
of the numerator by the denominator). -/
def ratTrunc (q : ℚ) : Int := q.num.tdiv (q.den : Int)

/-- Rounding of a rational to the nearest integer, ties to even — the
rounding used at the significand level by IEEE-754
round-to-nearest-even. -/
def rhe (x : ℚ) : ℤ :=
  let f := ⌊x⌋
  if x - f < 1/2 then f
  else if 1/2 < x - f then f + 1
  else if Even f then f else f + 1

/-- Rounding of a rational to the nearest IEEE-754 binary64 value (53-bit
significand, round to nearest, ties to even), with an unbounded exponent:
`|q|` is scaled by the power of two that brings it into `[2^52, 2^53)`,
the scaled value is rounded to an integer significand by `rhe`, and the
result is scaled back.  It fixes every value that is already a binary64
double, and agrees with hardware binary64 arithmetic wherever no
intermediate value leaves the double range (CPython raises
`OverflowError` beyond it; subnormals cannot arise for the integer inputs
of `add_break`). -/
def round64 (q : ℚ) : ℚ :=
  if q = 0 then 0
  else
    ((if q < 0 then -1 else 1) : ℚ) *
      (rhe (|q| / 2 ^ (Int.log 2 |q| - 52)) : ℚ) * 2 ^ (Int.log 2 |q| - 52)

/-- The double CPython produces for a Python int operand of a float
operation (`PyLong_AsDouble`): the nearest binary64 value. -/
def pyFloat (n : ℤ) : ℚ := round64 (n : ℚ)

/-- The sample count computed by `add_break` (line 346):
`int((time_ms / 1000.0) * self.settings.sample_rate)`.  CPython evaluates
this in IEEE-754 binary64: each int operand is converted to the nearest
double, the division by the exactly representable constant `1000.0` and
the multiplication each round to nearest (ties to even), and `int()`
truncates the final double toward zero. -/
def add_break_num_samples (st : Mimic3State) (time_ms : Int) : Int :=
  ratTrunc (round64 (round64 (pyFloat time_ms / 1000) *
    pyFloat (st.settings.sample_rate : ℤ)))

/-- `add_break` (lines 344–357): append an `AudioResult` holding
`bytes(num_samples * 2)` zero bytes, 16-bit mono, at the configured sample
rate.  (`bytes(n)` raises for negative `n`; the claims only concern
non-negative durations, where `Int.toNat` is the identity on the count.) -/
def add_break (st : Mimic3State) (time_ms : Int) : Mimic3State :=
  let num_samples := add_break_num_samples st time_ms
  let audio_bytes := List.replicate (num_samples.toNat * 2) (0 : Nat)
  { st with results := st.results ++
      [BufferEntry.result
        (.audio st.settings.sample_rate audio_bytes 2 1)] }

/-- `set_mark` (lines 359–360): append a `MarkResult`. -/
def set_mark (st : Mimic3State) (name : String) : Mimic3State :=
  { st with results := st.results ++ [BufferEntry.result (.mark name)] }

/-- One value yielded by the `end_utterance` generator, tagged with its
provenance: `synthesized` records a `yield self._speak_sentence_phonemes
(sent_phonemes, settings=last_settings)` together with the dispatched
phoneme groups and settings snapshot, `passthrough` a `yield result` of an
already-finalized buffer entry.  The actual yielded value is `eventResult`;
the extra arguments only make each synthesis dispatch observable. -/
inductive FlushEvent where
  | synthesized (sent_phonemes : List (List String))
      (settings : Option Mimic3Settings) (result : BaseResult)
  | passthrough (result : BaseResult)
deriving DecidableEq

/-- The value actually yielded to the consumer for an event. -/
def eventResult : FlushEvent → BaseResult
  | .synthesized _ _ r => r
  | .passthrough r => r

/-- Number of synthesis dispatches among the yielded events. -/
def dispatchCount (events : List FlushEvent) : Nat :=
  events.countP (fun e => match e with
    | .synthesized _ _ _ => true
    | .passthrough _ => false)

/-- The loop of `end_utterance` (lines 367–389) as a recursion over the
remaining buffer entries, carrying the `sent_phonemes` accumulator and
`last_settings`.  It returns the events yielded before the generator
finished or raised, `none`/`some e` for a clean finish or an abort, and the
state after (dispatches load voices, so the cache is threaded through).
When a dispatch raises, the events already yielded stand (the consumer
received them) and the recursion stops, exactly as an exception propagating
out of the generator frame. -/
def endLoop (env : Env) (st : Mimic3State) :
    List BufferEntry → List (List String) → Option Mimic3Settings →
    List FlushEvent × Option TtsError × Mimic3State
  | [], sent_phonemes, last_settings =>
    if sent_phonemes.isEmpty then ([], none, st)
    else
      match _speak_sentence_phonemes env st sent_phonemes last_settings with
      | (.ok a, st') => ([.synthesized sent_phonemes last_settings a], none, st')
      | (.error e, st') => ([], some e, st')
  | .phonemes p :: rest, sent_phonemes, last_settings =>
    if p.is_utterance = true ∨ some p.current_settings ≠ last_settings then
      if sent_phonemes.isEmpty then
        endLoop env st rest (sent_phonemes ++ p.phonemes) (some p.current_settings)
      else
        match _speak_sentence_phonemes env st sent_phonemes last_settings with
        | (.ok a, st') =>
          let r := endLoop env st' rest p.phonemes (some p.current_settings)
          (.synthesized sent_phonemes last_settings a :: r.1, r.2.1, r.2.2)
        | (.error e, st') => ([], some e, st')
    else
      endLoop env st rest (sent_phonemes ++ p.phonemes) (some p.current_settings)
  | .result r :: rest, sent_phonemes, last_settings =>
    if sent_phonemes.isEmpty then
      let k := endLoop env st rest sent_phonemes last_settings
      (.passthrough r :: k.1, k.2.1, k.2.2)
    else
      match _speak_sentence_phonemes env st sent_phonemes last_settings with
      | (.ok a, st') =>
        let k := endLoop env st' rest [] last_settings
        (.synthesized sent_phonemes last_settings a :: .passthrough r :: k.1,
         k.2.1, k.2.2)
      | (.error e, st') => ([], some e, st')

/-- `end_utterance` (lines 362–391): run the coalescing loop over
`self._results` with an empty accumulator and `last_settings = None`.
`self._results.clear()` is the statement after the loop, so it executes
only when the generator runs to completion; an exception propagating out
of a dispatch leaves the buffer untouched. -/
def end_utterance (env : Env) (st : Mimic3State) :
    List FlushEvent × Option TtsError × Mimic3State :=
  match endLoop env st st.results [] none with
  | (events, none, st') => (events, none, { st' with results := [] })
  | (events, some e, st') => (events, some e, st')

/-- Settings snapshots of the pending phoneme runs in a buffer, in order. -/
def pendingSettings (entries : List BufferEntry) : List Mimic3Settings :=
  entries.filterMap (fun b => match b with
    | .phonemes p => some p.current_settings
    | .result _ => none)

/-- Number of maximal runs of adjacent equal values: `0` for the empty
list, and one more than the number of adjacent unequal pairs otherwise. -/
def runsCount : List Mimic3Settings → Nat
  | [] => 0
  | [_] => 1
  | a :: b :: rest => (if a = b then 0 else 1) + runsCount (b :: rest)

/-- A buffer entry that is a pending phoneme run as pushed by
`speak_text`/`speak_tokens`: not flagged as an utterance boundary (both
always push `is_utterance=False`) and carrying at least one phoneme
group. -/
def goodRun : BufferEntry → Bool
  | .phonemes p => !p.is_utterance && !p.phonemes.isEmpty
  | .result _ => false

/-- A pending run as stored in the object-store model below: instead of a
settings value it holds the store id of the settings object captured for
it. -/
structure HeapPhonemes where
  settingsId : Nat
  phonemes : List (List String)
  is_utterance : Bool
deriving DecidableEq

/-- Object-store rendering of the push performed by `speak_text` (lines
297–303) and `speak_tokens` (lines 336–342), which makes
`deepcopy(self.settings)` observable: settings objects live in a store
indexed by id, `liveId` is the id of the live `self.settings` object, and
each buffered run references the id of the settings object captured for
it.  Only the pending-run entries of the buffer are represented
(already-finalized directives capture no settings). -/
structure HeapState where
  store : List Mimic3Settings
  liveId : Nat
  runsH : List HeapPhonemes
deriving DecidableEq

/-- The value of the live `self.settings` object. -/
def liveSettings (h : HeapState) : Mimic3Settings :=
  h.store.getD h.liveId {}

/-- `deepcopy(self.settings)` (line 299 / line 338): allocate a fresh
settings object whose value equals the live one, returning its id. -/
def deepcopySettings (h : HeapState) : Nat × HeapState :=
  (h.store.length, { h with store := h.store ++ [liveSettings h] })

/-- The `self._results.append(Mimic3Phonemes(current_settings=
deepcopy(self.settings), phonemes=..., is_utterance=False))` statement. -/
def pushRun (h : HeapState) (phonemes : List (List String)) : HeapState :=
  let copied := deepcopySettings h
  { copied.2 with runsH := copied.2.runsH ++
      [{ settingsId := copied.1, phonemes := phonemes, is_utterance := false }] }

/-- The push loop of `speak_text` (lines 296–303): one pending run per
sentence produced by `voice.text_to_phonemes`, each with its own settings
copy. -/
def speak_text_push (h : HeapState) :
    List (List (List String)) → HeapState
  | [] => h
  | sent_phonemes :: rest => speak_text_push (pushRun h sent_phonemes) rest

/-- The push of `speak_tokens` (lines 335–342): a single pending run when
the accumulated token phonemes are non-empty. -/
def speak_tokens_push (h : HeapState) (token_phonemes : List (List String)) :
    HeapState :=
  if token_phonemes = [] then h else pushRun h token_phonemes

/-- Mutation of any fields of the live settings object after a push (for
example `self.settings.length_scale = ...` or the `voice` setter): the
store cell at `liveId` is updated in place; no other object changes. -/
def mutateSettings (h : HeapState) (f : Mimic3Settings → Mimic3Settings) :
    HeapState :=
  { h with store := h.store.set h.liveId (f (liveSettings h)) }

/-- The settings snapshot a buffered run records, read through its store
id. -/
def recordedSettings (h : HeapState) (r : HeapPhonemes) : Option Mimic3Settings :=
  h.store[r.settingsId]?

/-- A pending-run buffer entry as pushed by `speak_text`/`speak_tokens`. -/
def runEntry (s : Mimic3Settings) (ph : List (List String)) : BufferEntry :=
  .phonemes { current_settings := s, phonemes := ph, is_utterance := false }

/-- Concrete settings naming the catalog voice below. -/
def sW : Mimic3Settings := { voice := some "en_US/low" }

/-- Same voice, different sample rate: differs from `sW` in one field. -/
def sW2 : Mimic3Settings := { voice := some "en_US/low", sample_rate := 16000 }

/-- A concrete environment in which everything succeeds: one locally
available catalog voice `en_US/low` and engines that always answer. -/
def envW : Env :=
  { getVoices := [{ key := "en_US/low", location := ["voices", "en_US", "low"] }]
    isDir := fun p => p == ["voices", "en_US", "low"]
    registry := [("en_US/low", ["generator.onnx"])]
    transfer := fun _ _ _ _ => .ok ()
    loadVoice := fun _ => .ok ()
    voiceSampleRate := fun _ => 22050
    text_to_phonemes := fun _ _ _ => [[["a"]]]
    word_to_phonemes := fun _ _ _ _ => ["w"]
    say_as_to_phonemes := fun _ _ _ _ _ => []
    graphemes := fun _ => []
    phonemes_to_ids := fun _ ps => .ok (List.replicate ps.length 1)
    ids_to_audio := fun _ _ _ _ _ _ => .ok [0] }

/-- Like `envW` but with an empty catalog: no voice can be resolved. -/
def envB : Env := { envW with getVoices := [] }

/-- A fresh system state with empty buffer and cache. -/
def st0 : Mimic3State := { settings := sW }

/-- Buffer with three pending runs: two under `sW`, then one under `sW2`. -/
def stW1 : Mimic3State :=
  { settings := sW
    results := [runEntry sW [["a"]], runEntry sW [["b"]], runEntry sW2 [["c"]]] }

/-- Buffer with one pending run, in an environment where its flush will
fail to resolve the voice. -/
def stB : Mimic3State := { settings := sW, results := [runEntry sW [["a"]]] }

/-- Buffer with a mark between two pending runs of equal settings. -/
def stW6 : Mimic3State :=
  { settings := sW
    results := [runEntry sW [["a"]], BufferEntry.result (.mark "m"),
                runEntry sW [["b"]]] }

/-- Catalog with two voices whose keys both end in `low`: the canonical key
`en_US/low` also suffix-matches the earlier `de_DE/xlow` entry's bare-name
lookups. -/
def envC3 : Env :=
  { envW with
      getVoices :=
        [{ key := "de_DE/xlow", location := ["v", "de_DE", "xlow"] },
         { key := "en_US/low", location := ["v", "en_US", "low"] }]
      isDir := fun p => p == ["v", "de_DE", "xlow"] || p == ["v", "en_US", "low"] }

/-- Catalog for the download-failure scan: the requested key `a/k`
suffix-matches `aa/k` (not locally available) before `ba/k` (locally
available); the registry knows `a/k` but the transfer collaborator
raises. -/
def envC5 : Env :=
  { envW with
      getVoices :=
        [{ key := "aa/k", location := ["p", "aa", "k"] },
         { key := "ba/k", location := ["q", "ba", "k"] }]
      isDir := fun p => p == ["q", "ba", "k"]
      registry := [("a/k", ["gen"])]
      transfer := fun _ _ _ _ => .error "boom" }

/-- Catalog whose only voice is never locally available, with an empty
registry: any resolution attempts a download. -/
def envC10 : Env :=
  { envW with
      isDir := fun _ => false
      registry := [] }

/-- State whose configured sample rate is 16000 (the spec's break
example). -/
def stR16000 : Mimic3State := { settings := { sW with sample_rate := 16000 } }

/-- State whose configured sample rate is 14: at `time_ms = 125` the exact
product is 1.75, separating truncation from rounding. -/
def stR14 : Mimic3State := { settings := { sW with sample_rate := 14 } }

/-- A heap state with one settings object, which is the live one. -/
def hp0 : HeapState := { store := [sW], liveId := 0, runsH := [] }

/-- A fresh state with downloading disabled. -/
def stND : Mimic3State := { settings := { sW with no_download := true } }

/-- `envC5` with no local directory at all (with downloading disabled this
exhausts the scan). -/
def envC5nd : Env := { envC5 with isDir := fun _ => false }

/-- A catalog voice that is not local, but whose download lands in the
expected download directory. -/
def envDlHit : Env :=
  { envW with
      isDir := fun p => p == DEFAULT_VOICES_DOWNLOAD_DIR ++ ["en_US", "low"] }

/-- A catalog voice that is not local and whose download completes without
producing the expected directory. -/
def envDlMiss : Env := { envW with isDir := fun _ => false }

/-- A state whose settings carry a selected speaker. -/
def stSpk : Mimic3State :=
  { settings := { sW with speaker := some (Sum.inl "sp") } }

/-- The cache invariant: every cached handle is also cached under the
canonical key derived from its own model directory.  It immediately implies
that at most one loaded handle exists per canonical key, with any number of
alias keys sharing it. -/
def cacheInv (c : List (String × Mimic3Voice)) : Prop :=
  ∀ k v, lookupVoice c k = some v →
    lookupVoice c (canonicalKeyOf v.model_dir) = some v

/-- State whose configured sample rate is 100: at `time_ms = 290` the
binary64 pipeline truncates to 28 samples although the exact product is
29. -/
def stR100 : Mimic3State := { settings := { sW with sample_rate := 100 } }

instance {ε α : Type} [DecidableEq ε] [DecidableEq α] : DecidableEq (Except ε α) := fun a b =>
  match a, b with
  | .ok x, .ok y =>
    match decEq x y with
    | isTrue h => isTrue (by rw [h])
    | isFalse h => isFalse (fun he => h (Except.ok.inj he))
  | .ok _, .error _ => isFalse (fun he => Except.noConfusion he)
  | .error _, .ok _ => isFalse (fun he => Except.noConfusion he)
  | .error e, .error f =>
    match decEq e f with
    | isTrue h => isTrue (by rw [h])
    | isFalse h => isFalse (fun he => h (Except.error.inj he))

/-- Reading the cache after a dict write: the written key maps to the new
handle, every other key is unaffected. -/
theorem lookupVoice_insert (c : List (String × Mimic3Voice)) (k : String)
    (v : Mimic3Voice) (k' : String) :
    lookupVoice (insertVoice c k v) k' =
      if k = k' then some v else lookupVoice c k' := by
  induction c with
  | nil => simp [insertVoice, lookupVoice]
  | cons hd tl ih =>
    obtain ⟨k0, v0⟩ := hd
    by_cases h0 : k0 = k
    · subst h0
      simp only [insertVoice, if_pos rfl, lookupVoice]
      by_cases h1 : k0 = k' <;> simp [h1]
    · simp only [insertVoice, if_neg h0, lookupVoice, ih]
      by_cases h1 : k0 = k'
      · subst h1
        rw [if_pos rfl, if_neg (fun h : k = k0 => h0 h.symm), if_pos rfl]
      · simp [h1]

/-- A descriptor whose key does not end with the requested key is passed
over by the scan. -/
theorem findModelDir_skip (env : Env) (st : Mimic3State) (key : String)
    (d : VoiceDesc) (rest : List VoiceDesc)
    (h : strEndsWith d.key key = false) :
    findModelDir env st key (d :: rest) = findModelDir env st key rest := by
  simp [findModelDir, h]

/-- A scan over a catalog with no suffix match leaves `model_dir` unset. -/
theorem findModelDir_no_match (env : Env) (st : Mimic3State) (key : String)
    (ds : List VoiceDesc) (h : ∀ d ∈ ds, strEndsWith d.key key = false) :
    findModelDir env st key ds = .ok none := by
  induction ds with
  | nil => rfl
  | cons d rest ih =>
    rw [findModelDir_skip env st key d rest (h d (by simp))]
    exact ih (fun d' hd' => h d' (by simp [hd']))

/-- A matchless catalog segment in front of the scan can be dropped. -/
theorem findModelDir_skip_all (env : Env) (st : Mimic3State) (key : String)
    (pre l : List VoiceDesc) (h : ∀ d ∈ pre, strEndsWith d.key key = false) :
    findModelDir env st key (pre ++ l) = findModelDir env st key l := by
  induction pre with
  | nil => rfl
  | cons d rest ih =>
    rw [List.cons_append,
      findModelDir_skip env st key d (rest ++ l) (h d (by simp))]
    exact ih (fun d' hd' => h d' (by simp [hd']))

/-- The first matching descriptor with an existing local directory stops the
scan with that directory. -/
theorem findModelDir_local_hit (env : Env) (st : Mimic3State) (key : String)
    (d : VoiceDesc) (rest : List VoiceDesc)
    (hm : strEndsWith d.key key = true) (hd : env.isDir d.location = true) :
    findModelDir env st key (d :: rest) = .ok (some d.location) := by
  simp [findModelDir, hm, hd]

/-- With downloading disabled, a matching descriptor whose location is not a
local directory is treated as not locally available: the scan continues
over the remaining descriptors. -/
theorem findModelDir_disabled_skip (env : Env) (st : Mimic3State) (key : String)
    (d : VoiceDesc) (rest : List VoiceDesc)
    (hm : strEndsWith d.key key = true) (hd : env.isDir d.location = false)
    (hnd : st.settings.no_download = true) :
    findModelDir env st key (d :: rest) = findModelDir env st key rest := by
  simp [findModelDir, hm, hd, hnd]

/-- With downloading enabled, a matching descriptor whose location is not a
local directory triggers `_download_voice` on the requested key, and a
raising download propagates out of the scan (the remaining descriptors are
never visited). -/
theorem findModelDir_download_raises (env : Env) (st : Mimic3State)
    (key : String) (d : VoiceDesc) (rest : List VoiceDesc) (e : TtsError)
    (hm : strEndsWith d.key key = true) (hd : env.isDir d.location = false)
    (hnd : st.settings.no_download = false)
    (hdl : _download_voice env st key = .error e) :
    findModelDir env st key (d :: rest) = .error e := by
  simp [findModelDir, hm, hd, hnd, hdl]

/-- With downloading enabled, a download that returns an existing directory
stops the scan with it. -/
theorem findModelDir_download_hit (env : Env) (st : Mimic3State)
    (key : String) (d : VoiceDesc) (rest : List VoiceDesc) (p : List String)
    (hm : strEndsWith d.key key = true) (hd : env.isDir d.location = false)
    (hnd : st.settings.no_download = false)
    (hdl : _download_voice env st key = .ok p) (hp : env.isDir p = true) :
    findModelDir env st key (d :: rest) = .ok (some p) := by
  simp [findModelDir, hm, hd, hnd, hdl, hp]

/-- With downloading enabled, a download that returns without yielding an
existing directory lets the scan continue. -/
theorem findModelDir_download_miss (env : Env) (st : Mimic3State)
    (key : String) (d : VoiceDesc) (rest : List VoiceDesc) (p : List String)
    (hm : strEndsWith d.key key = true) (hd : env.isDir d.location = false)
    (hnd : st.settings.no_download = false)
    (hdl : _download_voice env st key = .ok p) (hp : env.isDir p = false) :
    findModelDir env st key (d :: rest) = findModelDir env st key rest := by
  simp [findModelDir, hm, hd, hnd, hdl, hp]

/-- With downloading disabled the scan is a pure filter: it leaves
`model_dir` unset exactly when no matching descriptor has an existing local
directory. -/
theorem findModelDir_disabled_none_iff (env : Env) (st : Mimic3State)
    (key : String) (ds : List VoiceDesc)
    (hnd : st.settings.no_download = true) :
    findModelDir env st key ds = .ok none ↔
      ∀ d ∈ ds, strEndsWith d.key key = true → env.isDir d.location = false := by
  induction ds with
  | nil => simp [findModelDir]
  | cons d rest ih =>
    by_cases hm : strEndsWith d.key key = true
    · by_cases hd : env.isDir d.location = true
      · rw [findModelDir_local_hit env st key d rest hm hd]
        constructor
        · intro h; exact absurd h (by simp)
        · intro h
          exact absurd hd (by simp [h d (by simp) hm])
      · rw [findModelDir_disabled_skip env st key d rest hm
          (by simpa using hd) hnd, ih]
        constructor
        · intro h d' hd' hm'
          rcases List.mem_cons.mp hd' with h' | h'
          · subst h'; simpa using hd
          · exact h d' h' hm'
        · intro h d' hd' hm'
          exact h d' (by simp [hd']) hm'
    · rw [findModelDir_skip env st key d rest (by simpa using hm), ih]
      constructor
      · intro h d' hd' hm'
        rcases List.mem_cons.mp hd' with h' | h'
        · subst h'; exact absurd hm' hm
        · exact h d' h' hm'
      · intro h d' hd' hm'
        exact h d' (by simp [hd']) hm'

/-- An exact cache hit returns the cached handle and changes nothing. -/
theorem resolve_hit (env : Env) (st : Mimic3State) (key : String)
    (v : Mimic3Voice) (h : lookupVoice st.loaded_voices key = some v) :
    _get_or_load_voice env st key = (.ok v, st) := by
  simp [_get_or_load_voice, h]

/-- A raising scan propagates its error and changes nothing. -/
theorem resolve_scan_raises (env : Env) (st : Mimic3State) (key : String)
    (e : TtsError) (h : lookupVoice st.loaded_voices key = none)
    (hf : findModelDir env st key env.getVoices = .error e) :
    _get_or_load_voice env st key = (.error e, st) := by
  simp [_get_or_load_voice, h, hf]

/-- A scan that leaves `model_dir` unset raises `VoiceNotFoundError` naming
the requested key. -/
theorem resolve_not_found (env : Env) (st : Mimic3State) (key : String)
    (h : lookupVoice st.loaded_voices key = none)
    (hf : findModelDir env st key env.getVoices = .ok none) :
    _get_or_load_voice env st key = (.error (.voiceNotFound key), st) := by
  simp [_get_or_load_voice, h, hf]

/-- When the found directory's canonical key is already cached, the
requested key is aliased to the existing handle and no load happens. -/
theorem resolve_alias (env : Env) (st : Mimic3State) (key : String)
    (dir : List String) (ex : Mimic3Voice)
    (h : lookupVoice st.loaded_voices key = none)
    (hf : findModelDir env st key env.getVoices = .ok (some dir))
    (hc : lookupVoice st.loaded_voices (canonicalKeyOf dir) = some ex) :
    _get_or_load_voice env st key =
      (.ok ex, { st with loaded_voices := insertVoice st.loaded_voices key ex }) := by
  simp [_get_or_load_voice, h, hf, hc]

/-- A failing config load inside `load_from_directory` propagates and
changes nothing. -/
theorem resolve_load_raises (env : Env) (st : Mimic3State) (key : String)
    (dir : List String) (e : String)
    (h : lookupVoice st.loaded_voices key = none)
    (hf : findModelDir env st key env.getVoices = .ok (some dir))
    (hc : lookupVoice st.loaded_voices (canonicalKeyOf dir) = none)
    (hl : env.loadVoice dir = .error e) :
    _get_or_load_voice env st key = (.error (.configFailure e), st) := by
  simp [_get_or_load_voice, h, hf, hc, hl]

/-- A fresh load caches the new handle under both the requested and the
canonical key and bumps the allocation counter. -/
theorem resolve_fresh (env : Env) (st : Mimic3State) (key : String)
    (dir : List String)
    (h : lookupVoice st.loaded_voices key = none)
    (hf : findModelDir env st key env.getVoices = .ok (some dir))
    (hc : lookupVoice st.loaded_voices (canonicalKeyOf dir) = none)
    (hl : env.loadVoice dir = .ok ()) :
    _get_or_load_voice env st key =
      (.ok { id := st.nextVoiceId, model_dir := dir },
       { st with
          nextVoiceId := st.nextVoiceId + 1,
          loaded_voices :=
            insertVoice (insertVoice st.loaded_voices key
              { id := st.nextVoiceId, model_dir := dir })
              (canonicalKeyOf dir) { id := st.nextVoiceId, model_dir := dir } }) := by
  simp [_get_or_load_voice, h, hf, hc, hl]

/-- Voice resolution never touches the directive buffer or the settings. -/
theorem resolve_preserves (env : Env) (st : Mimic3State) (key : String) :
    ((_get_or_load_voice env st key).2).results = st.results ∧
    ((_get_or_load_voice env st key).2).settings = st.settings := by
  rcases hl : lookupVoice st.loaded_voices key with _ | v
  · rcases hf : findModelDir env st key env.getVoices with e | md
    · rw [resolve_scan_raises env st key e hl hf]
      exact ⟨rfl, rfl⟩
    · rcases md with _ | dir
      · rw [resolve_not_found env st key hl hf]
        exact ⟨rfl, rfl⟩
      · rcases hc : lookupVoice st.loaded_voices (canonicalKeyOf dir) with _ | ex
        · rcases hlv : env.loadVoice dir with e | u
          · rw [resolve_load_raises env st key dir e hl hf hc hlv]
            exact ⟨rfl, rfl⟩
          · cases u
            rw [resolve_fresh env st key dir hl hf hc hlv]
            exact ⟨rfl, rfl⟩
        · rw [resolve_alias env st key dir ex hl hf hc]
          exact ⟨rfl, rfl⟩
  · rw [resolve_hit env st key v hl]
    exact ⟨rfl, rfl⟩

/-- Synthesis dispatch never touches the directive buffer or the settings
(it may load voices into the cache). -/
theorem speak_preserves (env : Env) (st : Mimic3State)
    (sent_phonemes : List (List String)) (settingsOpt : Option Mimic3Settings) :
    ((_speak_sentence_phonemes env st sent_phonemes settingsOpt).2).results
        = st.results ∧
    ((_speak_sentence_phonemes env st sent_phonemes settingsOpt).2).settings
        = st.settings := by
  unfold _speak_sentence_phonemes
  dsimp only
  rcases hr : _get_or_load_voice env st
      (pyOr (settingsOpt.getD st.settings).voice
        (pyOr st.settings.voice DEFAULT_VOICE)) with ⟨res, st'⟩
  have hpres := resolve_preserves env st
    (pyOr (settingsOpt.getD st.settings).voice (pyOr st.settings.voice DEFAULT_VOICE))
  rw [hr] at hpres
  rcases res with e | voice
  · exact hpres
  · dsimp only
    rcases hp : env.phonemes_to_ids voice.model_dir sent_phonemes with e | ids
    · exact hpres
    · dsimp only
      rcases ha : env.ids_to_audio voice.model_dir ids
          (settingsOpt.getD st.settings).speaker
          (settingsOpt.getD st.settings).length_scale
          (settingsOpt.getD st.settings).noise_scale
          (settingsOpt.getD st.settings).noise_w with e | audio
      · exact hpres
      · exact hpres

/-- Loop end with an empty accumulator: nothing more is yielded. -/
theorem endLoop_nil_done (env : Env) (st : Mimic3State)
    (last : Option Mimic3Settings) :
    endLoop env st [] [] last = ([], none, st) := by
  simp [endLoop]

/-- Loop end with a non-empty accumulator and a succeeding final dispatch. -/
theorem endLoop_nil_ok (env : Env) (st : Mimic3State)
    (sent : List (List String)) (last : Option Mimic3Settings)
    (a : BaseResult) (st' : Mimic3State) (hs : sent ≠ [])
    (hd : _speak_sentence_phonemes env st sent last = (.ok a, st')) :
    endLoop env st [] sent last = ([.synthesized sent last a], none, st') := by
  simp [endLoop, hs, hd]

/-- Loop end with a non-empty accumulator and a raising final dispatch. -/
theorem endLoop_nil_raises (env : Env) (st : Mimic3State)
    (sent : List (List String)) (last : Option Mimic3Settings)
    (e : TtsError) (st' : Mimic3State) (hs : sent ≠ [])
    (hd : _speak_sentence_phonemes env st sent last = (.error e, st')) :
    endLoop env st [] sent last = ([], some e, st') := by
  simp [endLoop, hs, hd]

/-- A pending run that is no boundary (not an utterance end, same settings
as the previous run) merges into the accumulator. -/
theorem endLoop_phon_merge (env : Env) (st : Mimic3State)
    (p : Mimic3Phonemes) (rest : List BufferEntry)
    (sent : List (List String)) (last : Option Mimic3Settings)
    (hu : p.is_utterance = false) (hsame : some p.current_settings = last) :
    endLoop env st (.phonemes p :: rest) sent last =
      endLoop env st rest (sent ++ p.phonemes) (some p.current_settings) := by
  simp [endLoop, hu, hsame]

/-- A boundary run with an empty accumulator: no flush, the run's phonemes
start the new accumulator and its settings become `last_settings`. -/
theorem endLoop_phon_boundary_start (env : Env) (st : Mimic3State)
    (p : Mimic3Phonemes) (rest : List BufferEntry)
    (last : Option Mimic3Settings)
    (hb : p.is_utterance = true ∨ some p.current_settings ≠ last) :
    endLoop env st (.phonemes p :: rest) [] last =
      endLoop env st rest p.phonemes (some p.current_settings) := by
  rcases hb with hb | hb <;> simp [endLoop, hb]

/-- A boundary run with a non-empty accumulator and a succeeding flush: one
dispatch of the accumulated phonemes under the previous settings, then the
loop continues with the run's own phonemes and settings. -/
theorem endLoop_phon_boundary_flush (env : Env) (st : Mimic3State)
    (p : Mimic3Phonemes) (rest : List BufferEntry)
    (sent : List (List String)) (last : Option Mimic3Settings)
    (a : BaseResult) (st' : Mimic3State)
    (hb : p.is_utterance = true ∨ some p.current_settings ≠ last)
    (hs : sent ≠ [])
    (hd : _speak_sentence_phonemes env st sent last = (.ok a, st')) :
    endLoop env st (.phonemes p :: rest) sent last =
      (.synthesized sent last a ::
        (endLoop env st' rest p.phonemes (some p.current_settings)).1,
       (endLoop env st' rest p.phonemes (some p.current_settings)).2.1,
       (endLoop env st' rest p.phonemes (some p.current_settings)).2.2) := by
  rcases hb with hb | hb <;> simp [endLoop, hb, hs, hd]

/-- A boundary run whose flush raises: the generator stops with that error
and nothing further is yielded. -/
theorem endLoop_phon_boundary_raises (env : Env) (st : Mimic3State)
    (p : Mimic3Phonemes) (rest : List BufferEntry)
    (sent : List (List String)) (last : Option Mimic3Settings)
    (e : TtsError) (st' : Mimic3State)
    (hb : p.is_utterance = true ∨ some p.current_settings ≠ last)
    (hs : sent ≠ [])
    (hd : _speak_sentence_phonemes env st sent last = (.error e, st')) :
    endLoop env st (.phonemes p :: rest) sent last = ([], some e, st') := by
  rcases hb with hb | hb <;> simp [endLoop, hb, hs, hd]

/-- An already-finalized directive with an empty accumulator passes through
unchanged, in place; `last_settings` is kept. -/
theorem endLoop_result_pass (env : Env) (st : Mimic3State)
    (r : BaseResult) (rest : List BufferEntry)
    (last : Option Mimic3Settings) :
    endLoop env st (.result r :: rest) [] last =
      (.passthrough r :: (endLoop env st rest [] last).1,
       (endLoop env st rest [] last).2.1,
       (endLoop env st rest [] last).2.2) := by
  simp [endLoop]

/-- An already-finalized directive with a non-empty accumulator and a
succeeding flush: the accumulator is dispatched first (under the previous
settings), then the directive passes through, and the loop continues with
an empty accumulator but unchanged `last_settings`. -/
theorem endLoop_result_flush (env : Env) (st : Mimic3State)
    (r : BaseResult) (rest : List BufferEntry)
    (sent : List (List String)) (last : Option Mimic3Settings)
    (a : BaseResult) (st' : Mimic3State) (hs : sent ≠ [])
    (hd : _speak_sentence_phonemes env st sent last = (.ok a, st')) :
    endLoop env st (.result r :: rest) sent last =
      (.synthesized sent last a :: .passthrough r ::
        (endLoop env st' rest [] last).1,
       (endLoop env st' rest [] last).2.1,
       (endLoop env st' rest [] last).2.2) := by
  simp [endLoop, hs, hd]

/-- An already-finalized directive whose preceding flush raises: the
generator stops with that error; the directive itself is never yielded. -/
theorem endLoop_result_raises (env : Env) (st : Mimic3State)
    (r : BaseResult) (rest : List BufferEntry)
    (sent : List (List String)) (last : Option Mimic3Settings)
    (e : TtsError) (st' : Mimic3State) (hs : sent ≠ [])
    (hd : _speak_sentence_phonemes env st sent last = (.error e, st')) :
    endLoop env st (.result r :: rest) sent last = ([], some e, st') := by
  simp [endLoop, hs, hd]

/-- The loop of `end_utterance` never writes to `self._results`: the buffer
can only change through the `clear()` after the loop. -/
theorem endLoop_results_eq (env : Env) :
    ∀ (es : List BufferEntry) (st : Mimic3State) (sent : List (List String))
      (last : Option Mimic3Settings),
      ((endLoop env st es sent last).2.2).results = st.results := by
  intro es
  induction es with
  | nil =>
    intro st sent last
    by_cases hs : sent = []
    · subst hs
      rw [endLoop_nil_done]
    · rcases hd : _speak_sentence_phonemes env st sent last with ⟨r, st'⟩
      have hp := (speak_preserves env st sent last).1
      rw [hd] at hp
      rcases r with e | a
      · rw [endLoop_nil_raises env st sent last e st' hs hd]
        exact hp
      · rw [endLoop_nil_ok env st sent last a st' hs hd]
        exact hp
  | cons b rest ih =>
    intro st sent last
    cases b with
    | result r =>
      by_cases hs : sent = []
      · subst hs
        rw [endLoop_result_pass]
        exact ih st [] last
      · rcases hd : _speak_sentence_phonemes env st sent last with ⟨r', st'⟩
        have hp := (speak_preserves env st sent last).1
        rw [hd] at hp
        rcases r' with e | a
        · rw [endLoop_result_raises env st r rest sent last e st' hs hd]
          exact hp
        · rw [endLoop_result_flush env st r rest sent last a st' hs hd]
          exact (ih st' [] last).trans hp
    | phonemes p =>
      by_cases hb : p.is_utterance = true ∨ some p.current_settings ≠ last
      · by_cases hs : sent = []
        · subst hs
          rw [endLoop_phon_boundary_start env st p rest last hb]
          exact ih st p.phonemes (some p.current_settings)
        · rcases hd : _speak_sentence_phonemes env st sent last with ⟨r', st'⟩
          have hp := (speak_preserves env st sent last).1
          rw [hd] at hp
          rcases r' with e | a
          · rw [endLoop_phon_boundary_raises env st p rest sent last e st' hb hs hd]
            exact hp
          · rw [endLoop_phon_boundary_flush env st p rest sent last a st' hb hs hd]
            exact (ih st' p.phonemes (some p.current_settings)).trans hp
      · push_neg at hb
        rw [endLoop_phon_merge env st p rest sent last
          (by simpa using hb.1) hb.2]
        exact ih st (sent ++ p.phonemes) (some p.current_settings)

theorem dispatchCount_nil : dispatchCount [] = 0 := rfl

theorem dispatchCount_synth (sp : List (List String)) (se : Option Mimic3Settings)
    (a : BaseResult) (l : List FlushEvent) :
    dispatchCount (.synthesized sp se a :: l) = dispatchCount l + 1 := by
  simp [dispatchCount]

theorem dispatchCount_pass (r : BaseResult) (l : List FlushEvent) :
    dispatchCount (.passthrough r :: l) = dispatchCount l := by
  simp [dispatchCount]

theorem pendingSettings_phon (p : Mimic3Phonemes) (rest : List BufferEntry) :
    pendingSettings (.phonemes p :: rest) =
      p.current_settings :: pendingSettings rest := by
  simp [pendingSettings]

/-- Unpacking `goodRun` for a pending-run entry. -/
theorem goodRun_phon (p : Mimic3Phonemes) (h : goodRun (.phonemes p) = true) :
    p.is_utterance = false ∧ p.phonemes ≠ [] := by
  simp [goodRun] at h
  exact ⟨h.1, by simpa using h.2⟩

/-- Coalescing invariant of the loop: over a tail of pending runs (none an
utterance boundary, none empty), with a non-empty accumulator gathered
under settings `s`, a completing loop performs one dispatch per maximal
run of adjacent value-equal settings in `s :: <tail settings>`. -/
theorem endLoop_dispatch_runs (env : Env) :
    ∀ (es : List BufferEntry) (st : Mimic3State) (sent : List (List String))
      (s : Mimic3Settings),
      (∀ b ∈ es, goodRun b = true) → sent ≠ [] →
      (endLoop env st es sent (some s)).2.1 = none →
      dispatchCount (endLoop env st es sent (some s)).1 =
        runsCount (s :: pendingSettings es) := by
  intro es
  induction es with
  | nil =>
    intro st sent s _ hs hok
    rcases hd : _speak_sentence_phonemes env st sent (some s) with ⟨r, st'⟩
    rcases r with e | a
    · rw [endLoop_nil_raises env st sent (some s) e st' hs hd] at hok
      exact absurd hok (by simp)
    · rw [endLoop_nil_ok env st sent (some s) a st' hs hd]
      simp [dispatchCount, pendingSettings, runsCount]
  | cons b rest ih =>
    intro st sent s hall hs hok
    cases b with
    | result r =>
      exact absurd (hall (BufferEntry.result r) (by simp)) (by simp [goodRun])
    | phonemes p =>
      obtain ⟨hu, hne⟩ := goodRun_phon p (hall (BufferEntry.phonemes p) (by simp))
      have hall' : ∀ b ∈ rest, goodRun b = true :=
        fun b hb => hall b (by simp [hb])
      by_cases hpc : p.current_settings = s
      · have hsame : some p.current_settings = some s := by rw [hpc]
        rw [endLoop_phon_merge env st p rest sent (some s) hu hsame] at hok ⊢
        rw [hpc] at hok ⊢
        rw [ih st (sent ++ p.phonemes) s hall' (by simp [hs]) hok]
        rw [pendingSettings_phon, hpc]
        cases hps : pendingSettings rest with
        | nil => simp [runsCount]
        | cons t ts => simp [runsCount]
      · have hb : p.is_utterance = true ∨ some p.current_settings ≠ some s :=
          Or.inr (by simp [hpc])
        rcases hd : _speak_sentence_phonemes env st sent (some s) with ⟨r', st'⟩
        rcases r' with e | a
        · rw [endLoop_phon_boundary_raises env st p rest sent (some s) e st' hb hs hd]
            at hok
          exact absurd hok (by simp)
        · rw [endLoop_phon_boundary_flush env st p rest sent (some s) a st' hb hs hd]
            at hok ⊢
          dsimp only at hok ⊢
          rw [dispatchCount_synth,
            ih st' p.phonemes p.current_settings hall' hne hok,
            pendingSettings_phon]
          have : runsCount (s :: p.current_settings :: pendingSettings rest) =
              1 + runsCount (p.current_settings :: pendingSettings rest) := by
            rw [runsCount, if_neg (fun h : s = p.current_settings => hpc h.symm)]
          rw [this]
          ring

/-- C1: for a buffer holding only pending phoneme runs as pushed by
`speak_text`/`speak_tokens` (no intervening output directive, each run
non-empty and not an utterance boundary), a completing `end_utterance`
performs exactly one synthesis dispatch per maximal run of adjacent
entries with value-equal settings snapshots: same-settings neighbours are
merged regardless of how many push calls produced them, and any
single-field difference between adjacent snapshots forces a dispatch
boundary. -/
theorem c1_coalescing_theorem (env : Env) (st : Mimic3State)
    (hall : ∀ b ∈ st.results, goodRun b = true)
    (hok : (end_utterance env st).2.1 = none) :
    dispatchCount (end_utterance env st).1 =
      runsCount (pendingSettings st.results) := by
  unfold end_utterance at hok ⊢
  rcases h : endLoop env st st.results [] none with ⟨evs, err, st'⟩
  cases err with
  | some e =>
    rw [h] at hok
    simp at hok
  | none =>
    dsimp only
    rcases hres : st.results with _ | ⟨b, rest⟩
    · rw [hres, endLoop_nil_done] at h
      have he : ([] : List FlushEvent) = evs := congrArg Prod.fst h
      rw [← he]
      simp [pendingSettings, runsCount, dispatchCount]
    · rw [hres] at hall
      cases b with
      | result r =>
        exact absurd (hall (BufferEntry.result r) (by simp)) (by simp [goodRun])
      | phonemes p =>
        obtain ⟨hu, hne⟩ := goodRun_phon p (hall (BufferEntry.phonemes p) (by simp))
        have hall' : ∀ b ∈ rest, goodRun b = true :=
          fun b hb => hall b (by simp [hb])
        rw [hres, endLoop_phon_boundary_start env st p rest none
          (Or.inr (by simp))] at h
        have hcount := endLoop_dispatch_runs env rest st p.phonemes
          p.current_settings hall' hne (by rw [h])
        rw [h] at hcount
        dsimp only at hcount
        rw [hcount, pendingSettings_phon]

/-- Witness for C1: three pushed runs — two under `sW`, one under `sW2`
(differing in the single field `sample_rate`) — flush with exactly two
dispatches: the two `sW` runs merge, the settings change forces a
boundary. -/
theorem c1_coalescing_witness :
    (∀ b ∈ stW1.results, goodRun b = true) ∧
    (end_utterance envW stW1).2.1 = none ∧
    dispatchCount (end_utterance envW stW1).1 =
      runsCount (pendingSettings stW1.results) ∧
    runsCount (pendingSettings stW1.results) = 2 :=
  ⟨by decide, by decide,
   c1_coalescing_theorem envW stW1 (by decide) (by decide), by decide⟩

/-- C2 (amended): the buffer is cleared exactly when the flush runs to
completion; a flush attempt that aborts with an error leaves the directive
buffer unchanged (the `clear()` after the generator loop is never
reached). -/
theorem c2_buffer_clear_amended (env : Env) (st : Mimic3State) :
    ((end_utterance env st).2.1 = none →
      (end_utterance env st).2.2.results = []) ∧
    (∀ e, (end_utterance env st).2.1 = some e →
      (end_utterance env st).2.2.results = st.results) := by
  unfold end_utterance
  rcases h : endLoop env st st.results [] none with ⟨evs, err, st'⟩
  cases err with
  | none =>
    refine ⟨fun _ => rfl, fun e he => ?_⟩
    exact absurd he (by simp)
  | some e0 =>
    refine ⟨fun hc => absurd hc (by simp), fun e he => ?_⟩
    have := endLoop_results_eq env st.results st [] none
    rw [h] at this
    exact this

/-- Counterexample for C2: a buffer with one pending run whose flush aborts
(voice not found) — after the flush attempt the directive buffer still
holds the poisoned entry, so it is not empty. -/
theorem c2_buffer_clear_counterexample :
    (end_utterance envB stB).2.1 = some (TtsError.voiceNotFound "en_US/low") ∧
    (end_utterance envB stB).2.2.results = stB.results ∧
    stB.results ≠ [] := by
  refine ⟨by decide, by decide, by decide⟩

/-- Witness for C2 (amended): a completing flush clears the buffer; the
aborting flush of the counterexample state leaves it unchanged. -/
theorem c2_buffer_clear_witness :
    (end_utterance envW stW1).2.2.results = [] ∧
    (end_utterance envB stB).2.2.results = stB.results :=
  ⟨(c2_buffer_clear_amended envW stW1).1 (by decide),
   (c2_buffer_clear_amended envB stB).2 (TtsError.voiceNotFound "en_US/low")
     (by decide)⟩

/-- C6: with exactly one mark between two pushed phoneme runs of value-equal
settings, a completing flush yields exactly two synthesis dispatches — the
first run's phonemes before the mark, the second run's after it — plus the
mark itself, preserving the original relative order. -/
theorem c6_mark_boundary_theorem (env : Env) (st : Mimic3State)
    (p1 p2 : Mimic3Phonemes) (m : BaseResult)
    (hres : st.results = [.phonemes p1, .result m, .phonemes p2])
    (hg1 : goodRun (.phonemes p1) = true) (hg2 : goodRun (.phonemes p2) = true)
    (hset : p1.current_settings = p2.current_settings)
    (hok : (end_utterance env st).2.1 = none) :
    ∃ a1 a2, (end_utterance env st).1 =
      [.synthesized p1.phonemes (some p1.current_settings) a1,
       .passthrough m,
       .synthesized p2.phonemes (some p1.current_settings) a2] ∧
      dispatchCount (end_utterance env st).1 = 2 := by
  obtain ⟨hu1, hne1⟩ := goodRun_phon p1 hg1
  obtain ⟨hu2, hne2⟩ := goodRun_phon p2 hg2
  unfold end_utterance at hok ⊢
  rcases h : endLoop env st st.results [] none with ⟨evs, err, st'⟩
  cases err with
  | some e =>
    rw [h] at hok
    simp at hok
  | none =>
    dsimp only
    rw [hres, endLoop_phon_boundary_start env st p1
      [BufferEntry.result m, BufferEntry.phonemes p2] none (Or.inr (by simp))] at h
    rcases hd1 : _speak_sentence_phonemes env st p1.phonemes
        (some p1.current_settings) with ⟨r1, st1⟩
    rcases r1 with e | a1
    · rw [endLoop_result_raises env st m [BufferEntry.phonemes p2] p1.phonemes
        (some p1.current_settings) e st1 hne1 hd1] at h
      have := congrArg (fun x => x.2.1) h
      simp at this
    · rw [endLoop_result_flush env st m [BufferEntry.phonemes p2] p1.phonemes
        (some p1.current_settings) a1 st1 hne1 hd1] at h
      rw [endLoop_phon_merge env st1 p2 [] []
        (some p1.current_settings) hu2 (by rw [hset])] at h
      rcases hd2 : _speak_sentence_phonemes env st1 ([] ++ p2.phonemes)
          (some p2.current_settings) with ⟨r2, st2⟩
      rcases r2 with e | a2
      · rw [endLoop_nil_raises env st1 ([] ++ p2.phonemes)
          (some p2.current_settings) e st2 (by simp [hne2]) hd2] at h
        have := congrArg (fun x => x.2.1) h
        simp at this
      · rw [endLoop_nil_ok env st1 ([] ++ p2.phonemes)
          (some p2.current_settings) a2 st2 (by simp [hne2]) hd2] at h
        have hevs := congrArg Prod.fst h
        dsimp only at hevs
        refine ⟨a1, a2, ?_, ?_⟩
        · rw [← hevs, hset]
          simp
        · rw [← hevs]
          simp [dispatchCount]

/-- Witness for C6: flushing `[run "a" under sW, mark "m", run "b" under
sW]` yields dispatch–mark–dispatch in order. -/
theorem c6_mark_boundary_witness :
    ∃ a1 a2, (end_utterance envW stW6).1 =
      [.synthesized [["a"]] (some sW) a1,
       .passthrough (.mark "m"),
       .synthesized [["b"]] (some sW) a2] ∧
      dispatchCount (end_utterance envW stW6).1 = 2 :=
  c6_mark_boundary_theorem envW stW6
    { current_settings := sW, phonemes := [["a"]], is_utterance := false }
    { current_settings := sW, phonemes := [["b"]], is_utterance := false }
    (.mark "m") rfl (by decide) (by decide) rfl (by decide)

/-- C9: a requested key that is no exact cache hit and suffix-matches no
enumerated catalog descriptor fails with `VoiceNotFoundError`, whose
message names the requested key. -/
theorem c9_not_found_theorem (env : Env) (st : Mimic3State) (key : String)
    (hmiss : lookupVoice st.loaded_voices key = none)
    (hnone : ∀ d ∈ env.getVoices, strEndsWith d.key key = false) :
    _get_or_load_voice env st key = (.error (.voiceNotFound key), st) ∧
    errorMessage (.voiceNotFound key) = "Voice not found: " ++ key :=
  ⟨resolve_not_found env st key hmiss
    (findModelDir_no_match env st key env.getVoices hnone), rfl⟩

/-- Witness for C9: resolving `nope` against the one-voice catalog. -/
theorem c9_not_found_witness :
    _get_or_load_voice envW st0 "nope" = (.error (.voiceNotFound "nope"), st0) ∧
    errorMessage (.voiceNotFound "nope") = "Voice not found: " ++ "nope" :=
  c9_not_found_theorem envW st0 "nope" (by decide) (by decide)

/-- A character that does not occur in the list makes the first-occurrence
split fail. -/
theorem splitFirstChar_of_not_contains (c : Char) (l : List Char)
    (h : l.contains c = false) : splitFirstChar c l = none := by
  induction l with
  | nil => rfl
  | cons x xs ih =>
    simp only [List.contains_cons, Bool.or_eq_false_iff] at h
    have hx : ¬ x = c := by
      intro hc
      subst hc
      simp at h
    simp [splitFirstChar, hx, ih (by simpa using h.2)]

/-- A successful first-occurrence split means the character occurs. -/
theorem splitFirstChar_contains (c : Char) :
    ∀ (l : List Char) (p : List Char × List Char),
      splitFirstChar c l = some p → l.contains c = true := by
  intro l
  induction l with
  | nil => intro p h; exact absurd h (by simp [splitFirstChar])
  | cons x xs ih =>
    intro p h
    by_cases hx : x = c
    · subst hx
      simp [List.contains_cons]
    · simp only [splitFirstChar, if_neg hx] at h
      rcases hq : splitFirstChar c xs with _ | q
      · rw [hq] at h
        exact absurd h (by simp)
      · have := ih q hq
        simp at this
        simp [List.contains_cons, this]

/-- C10: the download step receives the originally requested key (not the
matched descriptor's canonical key), so for a bare short name (no `/`)
`_download_voice` fails at key unpacking before the registry or the
transfer is consulted, and that failure is not a `VoiceNotFoundError`; the
download path reaches the transfer only for keys containing `/` that are
present in the static registry; consequently resolving a bare short name
whose first suffix match needs downloading aborts with the unpacking
error. -/
theorem c10_bare_key_download_theorem :
    (∀ (env : Env) (st : Mimic3State) (key : String),
      strContainsChar key '/' = false →
      _download_voice env st key = .error (.valueError key) ∧
      ∀ v, _download_voice env st key ≠ .error (.voiceNotFound v)) ∧
    (∀ (env : Env) (st : Mimic3State) (key : String),
      ((∃ p, _download_voice env st key = .ok p) ∨
       (∃ msg, _download_voice env st key = .error (.transferFailure msg))) →
      strContainsChar key '/' = true ∧ lookupRegistry env.registry key ≠ none) ∧
    (∀ (env : Env) (st : Mimic3State) (key : String)
      (pre : List VoiceDesc) (d : VoiceDesc) (post : List VoiceDesc),
      strContainsChar key '/' = false →
      lookupVoice st.loaded_voices key = none →
      env.getVoices = pre ++ d :: post →
      (∀ d' ∈ pre, strEndsWith d'.key key = false) →
      strEndsWith d.key key = true →
      env.isDir d.location = false →
      st.settings.no_download = false →
      _get_or_load_voice env st key = (.error (.valueError key), st)) := by
  have main1 : ∀ (env : Env) (st : Mimic3State) (key : String),
      strContainsChar key '/' = false →
      _download_voice env st key = .error (.valueError key) := by
    intro env st key h
    have hs : splitOnFirstSlash key = none := by
      unfold splitOnFirstSlash
      rw [splitFirstChar_of_not_contains '/' key.data h]
      rfl
    simp [_download_voice, hs]
  refine ⟨fun env st key h => ⟨main1 env st key h, ?_⟩, ?_, ?_⟩
  · intro v hv
    rw [main1 env st key h] at hv
    simp at hv
  · intro env st key hres
    unfold _download_voice at hres
    rcases hsp : splitOnFirstSlash key with _ | ⟨lang, name⟩
    · rw [hsp] at hres
      rcases hres with ⟨p, hp⟩ | ⟨msg, hm⟩
      · exact absurd hp (by simp)
      · exact absurd hm (by simp)
    · have hcontains : strContainsChar key '/' = true := by
        unfold splitOnFirstSlash at hsp
        rcases hq : splitFirstChar '/' key.data with _ | q
        · rw [hq] at hsp
          exact absurd hsp (by simp)
        · exact splitFirstChar_contains '/' key.data q hq
      rw [hsp] at hres
      rcases hreg : lookupRegistry env.registry key with _ | files
      · rw [hreg] at hres
        rcases hres with ⟨p, hp⟩ | ⟨msg, hm⟩
        · exact absurd hp (by simp)
        · exact absurd hm (by simp)
      · exact ⟨hcontains, by simp [hreg]⟩
  · intro env st key pre d post hslash hmiss hcat hpre hm hdir hnd
    have hdl : _download_voice env st key = .error (.valueError key) :=
      main1 env st key hslash
    have hfind : findModelDir env st key env.getVoices =
        .error (.valueError key) := by
      rw [hcat, findModelDir_skip_all env st key pre (d :: post) hpre]
      exact findModelDir_download_raises env st key d post (.valueError key)
        hm hdir hnd hdl
    exact resolve_scan_raises env st key (.valueError key) hmiss hfind

/-- Witness for C10: `_download_voice` on the bare name `low` fails at key
unpacking (not a voice-not-found error), and resolving `low` when its
suffix match is not locally available aborts with that error. -/
theorem c10_bare_key_download_witness :
    _download_voice envW st0 "low" = .error (.valueError "low") ∧
    (∀ v, _download_voice envW st0 "low" ≠ .error (.voiceNotFound v)) ∧
    _get_or_load_voice envC10 st0 "low" = (.error (.valueError "low"), st0) :=
  ⟨(c10_bare_key_download_theorem.1 envW st0 "low" (by decide)).1,
   (c10_bare_key_download_theorem.1 envW st0 "low" (by decide)).2,
   c10_bare_key_download_theorem.2.2 envC10 st0 "low" []
     { key := "en_US/low", location := ["voices", "en_US", "low"] } []
     (by decide) (by decide) rfl (by decide) (by decide) (by decide) (by decide)⟩

/-- Counterexample for C5: the requested key `a/k` first suffix-matches
`aa/k`, which is not locally available; the download raises, and
resolution aborts with the transfer error even though the later matching
descriptor `ba/k` has an existing local directory — the scan does not
continue past a failing download. -/
theorem c5_download_scan_counterexample :
    strEndsWith "ba/k" "a/k" = true ∧
    envC5.isDir ["q", "ba", "k"] = true ∧
    _get_or_load_voice envC5 st0 "a/k" =
      (.error (.transferFailure "boom"), st0) := by
  refine ⟨by decide, by decide, by decide⟩

/-- C5 (amended): at the first suffix-matching descriptor whose location is
not an existing local directory — if downloading is disabled, the
descriptor is treated as not locally available and the scan continues
(failing with voice-not-found only if no matching descriptor has a local
directory); if downloading is enabled, a download of the requested key is
triggered: a download that raises aborts the whole resolution with that
error, a download that returns an existing directory resolves to it, and a
download that completes without yielding the directory lets the scan
continue. -/
theorem c5_download_scan_amended :
    (∀ (env : Env) (st : Mimic3State) (key : String) (d : VoiceDesc)
       (rest : List VoiceDesc),
      strEndsWith d.key key = true → env.isDir d.location = false →
      st.settings.no_download = true →
      findModelDir env st key (d :: rest) = findModelDir env st key rest) ∧
    (∀ (env : Env) (st : Mimic3State) (key : String) (d : VoiceDesc)
       (rest : List VoiceDesc) (e : TtsError),
      strEndsWith d.key key = true → env.isDir d.location = false →
      st.settings.no_download = false →
      _download_voice env st key = .error e →
      findModelDir env st key (d :: rest) = .error e) ∧
    (∀ (env : Env) (st : Mimic3State) (key : String) (e : TtsError),
      lookupVoice st.loaded_voices key = none →
      findModelDir env st key env.getVoices = .error e →
      _get_or_load_voice env st key = (.error e, st)) ∧
    (∀ (env : Env) (st : Mimic3State) (key : String) (d : VoiceDesc)
       (rest : List VoiceDesc) (p : List String),
      strEndsWith d.key key = true → env.isDir d.location = false →
      st.settings.no_download = false →
      _download_voice env st key = .ok p → env.isDir p = true →
      findModelDir env st key (d :: rest) = .ok (some p)) ∧
    (∀ (env : Env) (st : Mimic3State) (key : String) (d : VoiceDesc)
       (rest : List VoiceDesc) (p : List String),
      strEndsWith d.key key = true → env.isDir d.location = false →
      st.settings.no_download = false →
      _download_voice env st key = .ok p → env.isDir p = false →
      findModelDir env st key (d :: rest) = findModelDir env st key rest) ∧
    (∀ (env : Env) (st : Mimic3State) (key : String),
      st.settings.no_download = true →
      lookupVoice st.loaded_voices key = none →
      (∀ d ∈ env.getVoices, strEndsWith d.key key = true →
        env.isDir d.location = false) →
      _get_or_load_voice env st key = (.error (.voiceNotFound key), st)) :=
  ⟨findModelDir_disabled_skip,
   findModelDir_download_raises,
   resolve_scan_raises,
   findModelDir_download_hit,
   findModelDir_download_miss,
   fun env st key hnd hmiss hall =>
     resolve_not_found env st key hmiss
       ((findModelDir_disabled_none_iff env st key env.getVoices hnd).mpr hall)⟩

/-- Witness for C5 (amended): all five scan behaviours at concrete
catalogs. -/
theorem c5_download_scan_witness :
    findModelDir envC5 stND "a/k"
        ({ key := "aa/k", location := ["p", "aa", "k"] } ::
         [{ key := "ba/k", location := ["q", "ba", "k"] }]) =
      findModelDir envC5 stND "a/k"
        [{ key := "ba/k", location := ["q", "ba", "k"] }] ∧
    findModelDir envC5 st0 "a/k"
        ({ key := "aa/k", location := ["p", "aa", "k"] } ::
         [{ key := "ba/k", location := ["q", "ba", "k"] }]) =
      .error (.transferFailure "boom") ∧
    _get_or_load_voice envC5 st0 "a/k" =
      (.error (.transferFailure "boom"), st0) ∧
    findModelDir envDlHit st0 "en_US/low"
        ({ key := "en_US/low", location := ["voices", "en_US", "low"] } :: []) =
      .ok (some (DEFAULT_VOICES_DOWNLOAD_DIR ++ ["en_US", "low"])) ∧
    findModelDir envDlMiss st0 "en_US/low"
        ({ key := "en_US/low", location := ["voices", "en_US", "low"] } :: []) =
      findModelDir envDlMiss st0 "en_US/low" [] ∧
    _get_or_load_voice envC5nd stND "a/k" =
      (.error (.voiceNotFound "a/k"), stND) :=
  ⟨c5_download_scan_amended.1 envC5 stND "a/k"
     { key := "aa/k", location := ["p", "aa", "k"] }
     [{ key := "ba/k", location := ["q", "ba", "k"] }]
     (by decide) (by decide) (by decide),
   c5_download_scan_amended.2.1 envC5 st0 "a/k"
     { key := "aa/k", location := ["p", "aa", "k"] }
     [{ key := "ba/k", location := ["q", "ba", "k"] }]
     (.transferFailure "boom") (by decide) (by decide) (by decide) (by decide),
   c5_download_scan_amended.2.2.1 envC5 st0 "a/k" (.transferFailure "boom")
     (by decide) (by decide),
   c5_download_scan_amended.2.2.2.1 envDlHit st0 "en_US/low"
     { key := "en_US/low", location := ["voices", "en_US", "low"] } []
     (DEFAULT_VOICES_DOWNLOAD_DIR ++ ["en_US", "low"])
     (by decide) (by decide) (by decide) (by decide) (by decide),
   c5_download_scan_amended.2.2.2.2.1 envDlMiss st0 "en_US/low"
     { key := "en_US/low", location := ["voices", "en_US", "low"] } []
     (DEFAULT_VOICES_DOWNLOAD_DIR ++ ["en_US", "low"])
     (by decide) (by decide) (by decide) (by decide) (by decide),
   c5_download_scan_amended.2.2.2.2.2 envC5nd stND "a/k"
     (by decide) (by decide) (by decide)⟩

/-- For a non-negative rational, Python `int()` truncation agrees with the
floor. -/
theorem ratTrunc_eq_floor (q : ℚ) (h : 0 ≤ q) : ratTrunc q = ⌊q⌋ := by
  rw [Rat.floor_def]
  exact Int.tdiv_eq_ediv (Rat.num_nonneg.mpr h) (by positivity)

/-- Tie-even integer rounding fixes integers. -/
theorem rhe_intCast (n : ℤ) : rhe (n : ℚ) = n := by
  unfold rhe
  simp

/-- Tie-even integer rounding preserves non-negativity. -/
theorem rhe_nonneg (x : ℚ) (h : 0 ≤ x) : 0 ≤ rhe x := by
  unfold rhe
  have hf : 0 ≤ ⌊x⌋ := Int.floor_nonneg.mpr h
  dsimp only
  split
  · exact hf
  · split
    · omega
    · split
      · exact hf
      · omega

/-- Evaluation of tie-even rounding when the fractional part is below a
half. -/
theorem rhe_eq_of_lt_half (x : ℚ) (f : ℤ) (hf : ⌊x⌋ = f) (hr : x - f < 1/2) :
    rhe x = f := by
  unfold rhe
  rw [hf, if_pos hr]

/-- Evaluation of tie-even rounding when the fractional part is above a
half. -/
theorem rhe_eq_of_half_lt (x : ℚ) (f : ℤ) (hf : ⌊x⌋ = f) (hr : 1/2 < x - f) :
    rhe x = f + 1 := by
  unfold rhe
  rw [hf, if_neg (not_lt.mpr hr.le), if_pos hr]

/-- Binary64 rounding preserves non-negativity. -/
theorem round64_nonneg (q : ℚ) (h : 0 ≤ q) : 0 ≤ round64 q := by
  unfold round64
  by_cases h0 : q = 0
  · simp [h0]
  · have hq : 0 < q := lt_of_le_of_ne h (Ne.symm h0)
    rw [if_neg h0, if_neg (not_lt.mpr hq.le)]
    have hdiv : (0:ℚ) ≤ |q| / 2 ^ (Int.log 2 |q| - 52) := by positivity
    have hr : (0:ℚ) ≤ (rhe (|q| / 2 ^ (Int.log 2 |q| - 52)) : ℚ) := by
      exact_mod_cast rhe_nonneg _ hdiv
    have h2 : (0:ℚ) ≤ 2 ^ (Int.log 2 |q| - 52) := by positivity
    calc (0:ℚ) ≤ 1 * (rhe (|q| / 2 ^ (Int.log 2 |q| - 52)) : ℚ) *
        2 ^ (Int.log 2 |q| - 52) := by
          rw [one_mul]
          exact mul_nonneg hr h2
    _ = _ := rfl

/-- Binary64 rounding fixes every value of the form `m * 2^e` with a
53-bit significand — i.e. every value exactly representable as a
double. -/
theorem round64_eq_self (m : ℕ) (e : ℤ) (hm0 : 0 < m) (hm : m < 2 ^ 53) :
    round64 ((m : ℚ) * 2 ^ e) = (m : ℚ) * 2 ^ e := by
  have h2 : (0:ℚ) < 2 := by norm_num
  have hmq : (0:ℚ) < (m : ℚ) := by exact_mod_cast hm0
  have ha : (0:ℚ) < (m : ℚ) * 2 ^ e := mul_pos hmq (zpow_pos h2 e)
  unfold round64
  rw [if_neg (ne_of_gt ha), if_neg (not_lt.mpr ha.le), abs_of_pos ha]
  set L := Int.log 2 ((m:ℚ) * 2 ^ e) with hLdef
  have hub : (m:ℚ) * 2 ^ e < ((2:ℕ):ℚ) ^ (53 + e) := by
    have hmlt : (m:ℚ) < 2 ^ (53:ℕ) := by exact_mod_cast hm
    calc (m:ℚ) * 2 ^ e < 2 ^ (53:ℕ) * 2 ^ e :=
      mul_lt_mul_of_pos_right hmlt (zpow_pos h2 e)
    _ = 2 ^ ((53:ℤ) + e) := by
        rw [← zpow_natCast (2:ℚ) 53, ← zpow_add₀ (by norm_num : (2:ℚ) ≠ 0)]
        norm_num
    _ = ((2:ℕ):ℚ) ^ ((53:ℤ) + e) := by norm_num
  have hLle : L ≤ 52 + e := by
    have := (Int.lt_zpow_iff_log_lt (b := 2) (by norm_num) ha).mp hub
    omega
  have hk : 0 ≤ e - (L - 52) := by omega
  have hquot : ((m:ℚ) * 2 ^ e) / 2 ^ (L - 52) =
      (((m * 2 ^ (e - (L - 52)).toNat : ℕ) : ℤ) : ℚ) := by
    rw [mul_div_assoc, ← zpow_sub₀ (by norm_num : (2:ℚ) ≠ 0)]
    push_cast
    rw [← zpow_natCast (2:ℚ) (e - (L - 52)).toNat, Int.toNat_of_nonneg hk]
  rw [hquot, rhe_intCast]
  push_cast
  rw [one_mul, mul_assoc, ← zpow_natCast (2:ℚ) (e - (L - 52)).toNat,
    Int.toNat_of_nonneg hk, ← zpow_add₀ (by norm_num : (2:ℚ) ≠ 0)]
  have he : e - (L - 52) + (L - 52) = e := by omega
  rw [he]

/-- Evaluation of binary64 rounding of a positive value from its binade
(`2^L ≤ a < 2^(L+1)`) and the tie-even rounding of its scaled
significand. -/
theorem round64_eval_pos (a : ℚ) (L mv : ℤ) (ha : 0 < a)
    (h1 : (2:ℚ) ^ L ≤ a) (h2 : a < (2:ℚ) ^ (L + 1))
    (hm : rhe (a / 2 ^ (L - 52)) = mv) :
    round64 a = (mv : ℚ) * 2 ^ (L - 52) := by
  have hL : Int.log 2 a = L := by
    have hb1 : (2:ℚ) ^ L = ((2:ℕ):ℚ) ^ L := by norm_num
    have hb2 : (2:ℚ) ^ (L + 1) = ((2:ℕ):ℚ) ^ (L + 1) := by norm_num
    have hge : L ≤ Int.log 2 a :=
      (Int.zpow_le_iff_le_log (by norm_num) ha).mp (hb1 ▸ h1)
    have hlt : Int.log 2 a < L + 1 :=
      (Int.lt_zpow_iff_log_lt (by norm_num) ha).mp (hb2 ▸ h2)
    omega
  unfold round64
  rw [if_neg (ne_of_gt ha), if_neg (not_lt.mpr ha.le), abs_of_pos ha, hL, hm,
    one_mul]

/-- Binary64 rounding fixes dyadic rationals `m / 2^k` with a 53-bit
numerator. -/
theorem round64_dyadic (m k : ℕ) (x : ℚ) (hm0 : 0 < m) (hm : m < 2 ^ 53)
    (hx : x = (m : ℚ) / 2 ^ k) : round64 x = x := by
  have h := round64_eq_self m (-(k:ℤ)) hm0 hm
  have hb : (m:ℚ) * 2 ^ (-(k:ℤ)) = (m:ℚ) / 2 ^ k := by
    rw [zpow_neg, zpow_natCast, div_eq_mul_inv]
  rw [hb] at h
  rw [hx]
  exact h

/-- Counterexample for C4: at `time_ms = 125` and `sample_rate = 14` every
step of the float pipeline is exact (`125/1000 = 1/8` and `1.75` are
dyadic), so Python computes exactly `1.75`: the code emits
`int(1.75) = 1` sample, while the claimed `round(1.75) = 2`. -/
theorem c4_break_rounding_counterexample :
    add_break_num_samples stR14 125 = 1 ∧
    round ((125 : ℚ) / 1000 * (stR14.settings.sample_rate : ℚ)) = 2 ∧
    (1 : ℤ) ≠ 2 := by
  have hsr : ((stR14.settings.sample_rate : ℤ)) = 14 := by
    norm_num [stR14, sW]
  have hsrq : ((stR14.settings.sample_rate : ℚ)) = 14 := by
    norm_num [stR14, sW]
  refine ⟨?_, ?_, by decide⟩
  · show ratTrunc (round64 (round64 (pyFloat 125 / 1000) *
      pyFloat (stR14.settings.sample_rate : ℤ))) = 1
    rw [hsr]
    have e1 : pyFloat 125 = 125 := by
      unfold pyFloat
      push_cast
      exact round64_dyadic 125 0 _ (by norm_num) (by norm_num) (by norm_num)
    have e1' : pyFloat 14 = 14 := by
      unfold pyFloat
      push_cast
      exact round64_dyadic 14 0 _ (by norm_num) (by norm_num) (by norm_num)
    have e2 : pyFloat 125 / 1000 = 1 / 8 := by
      rw [e1]
      norm_num
    have e3 : round64 ((1:ℚ) / 8) = 1 / 8 :=
      round64_dyadic 1 3 _ (by norm_num) (by norm_num) (by norm_num)
    have e4 : round64 (pyFloat 125 / 1000) * pyFloat 14 = 7 / 4 := by
      rw [e2, e3, e1']
      norm_num
    have e5 : round64 ((7:ℚ) / 4) = 7 / 4 :=
      round64_dyadic 7 2 _ (by norm_num) (by norm_num) (by norm_num)
    rw [e4, e5, ratTrunc_eq_floor _ (by norm_num), Int.floor_eq_iff]
    norm_num
  · rw [hsrq, round_eq]
    norm_num [Int.floor_eq_iff]

/-- C4 (amended): for non-negative `time_ms`, `add_break` appends an audio
result of exactly `int((time_ms / 1000.0) * sample_rate)` zero-valued
16-bit mono samples (2 zero bytes per sample, width 2, one channel) at
the configured sample rate, where the sample count is the *truncation*
(the floor, for non-negative durations) of the binary64-computed product —
not its rounding.  The spec's example `add_break(500)` at 16000 Hz (a
float-exact case) yields exactly 8000 samples; and because the product is
computed in binary64, at `time_ms = 290` and 100 Hz the code yields
`int(28.999999999999996) = 28` samples although the exact product is
29. -/
theorem c4_break_truncation_amended (st : Mimic3State) (time_ms : Int)
    (h : 0 ≤ time_ms) :
    (add_break st time_ms).results = st.results ++
      [BufferEntry.result (.audio st.settings.sample_rate
        (List.replicate ((add_break_num_samples st time_ms).toNat * 2) 0) 2 1)] ∧
    add_break_num_samples st time_ms =
      ⌊round64 (round64 (pyFloat time_ms / 1000) *
        pyFloat (st.settings.sample_rate : ℤ))⌋ ∧
    (time_ms = 500 → st.settings.sample_rate = 16000 →
      add_break_num_samples st time_ms = 8000) ∧
    (time_ms = 290 → st.settings.sample_rate = 100 →
      add_break_num_samples st time_ms = 28 ∧
      (⌊(290 : ℚ) / 1000 * 100⌋ : ℤ) = 29) := by
  refine ⟨rfl, ?_, ?_, ?_⟩
  · have h0 : (0:ℚ) ≤ (time_ms : ℚ) := by exact_mod_cast h
    have h1 : 0 ≤ pyFloat time_ms := round64_nonneg _ h0
    have h2 : 0 ≤ pyFloat time_ms / 1000 := div_nonneg h1 (by norm_num)
    have h3 : 0 ≤ round64 (pyFloat time_ms / 1000) := round64_nonneg _ h2
    have h4 : 0 ≤ pyFloat (st.settings.sample_rate : ℤ) := by
      apply round64_nonneg
      positivity
    have h6 : 0 ≤ round64 (round64 (pyFloat time_ms / 1000) *
        pyFloat (st.settings.sample_rate : ℤ)) :=
      round64_nonneg _ (mul_nonneg h3 h4)
    exact ratTrunc_eq_floor _ h6
  · intro h1 h2
    subst h1
    have hsr : ((st.settings.sample_rate : ℤ)) = 16000 := by
      rw [h2]
      norm_num
    show ratTrunc (round64 (round64 (pyFloat 500 / 1000) *
      pyFloat (st.settings.sample_rate : ℤ))) = 8000
    rw [hsr]
    have e1 : pyFloat 500 = 500 := by
      unfold pyFloat
      push_cast
      exact round64_dyadic 500 0 _ (by norm_num) (by norm_num) (by norm_num)
    have e1' : pyFloat 16000 = 16000 := by
      unfold pyFloat
      push_cast
      exact round64_dyadic 16000 0 _ (by norm_num) (by norm_num) (by norm_num)
    have e2 : pyFloat 500 / 1000 = 1 / 2 := by
      rw [e1]
      norm_num
    have e3 : round64 ((1:ℚ) / 2) = 1 / 2 :=
      round64_dyadic 1 1 _ (by norm_num) (by norm_num) (by norm_num)
    have e4 : round64 (pyFloat 500 / 1000) * pyFloat 16000 = 8000 := by
      rw [e2, e3, e1']
      norm_num
    have e5 : round64 ((8000:ℚ)) = 8000 :=
      round64_dyadic 8000 0 _ (by norm_num) (by norm_num) (by norm_num)
    rw [e4, e5, ratTrunc_eq_floor _ (by norm_num), Int.floor_eq_iff]
    norm_num
  · intro h1 h2
    subst h1
    have hsr : ((st.settings.sample_rate : ℤ)) = 100 := by
      rw [h2]
      norm_num
    constructor
    · show ratTrunc (round64 (round64 (pyFloat 290 / 1000) *
        pyFloat (st.settings.sample_rate : ℤ))) = 28
      rw [hsr]
      have e1 : pyFloat 290 = 290 := by
        unfold pyFloat
        push_cast
        exact round64_dyadic 290 0 _ (by norm_num) (by norm_num) (by norm_num)
      have e1' : pyFloat 100 = 100 := by
        unfold pyFloat
        push_cast
        exact round64_dyadic 100 0 _ (by norm_num) (by norm_num) (by norm_num)
      have e2 : pyFloat 290 / 1000 = 29 / 100 := by
        rw [e1]
        norm_num
      have e3 : round64 ((29:ℚ) / 100) = 5224175567749775 / 2 ^ 54 := by
        have hev := round64_eval_pos (29/100) (-2) 5224175567749775 (by norm_num)
          (by rw [show ((-2):ℤ) = -(2:ℕ) by norm_num, zpow_neg, zpow_natCast]
              norm_num)
          (by rw [show ((-2):ℤ) + 1 = -(1:ℕ) by norm_num, zpow_neg, zpow_natCast]
              norm_num)
          ?hm
        · rw [hev, show ((-2):ℤ) - 52 = -(54:ℕ) by norm_num, zpow_neg,
            zpow_natCast]
          norm_num
        · apply rhe_eq_of_lt_half
          · rw [show ((-2):ℤ) - 52 = -(54:ℕ) by norm_num, zpow_neg, zpow_natCast,
              div_inv_eq_mul, Int.floor_eq_iff]
            norm_num
          · rw [show ((-2):ℤ) - 52 = -(54:ℕ) by norm_num, zpow_neg, zpow_natCast,
              div_inv_eq_mul]
            norm_num
      have e4 : round64 (pyFloat 290 / 1000) * pyFloat 100 =
          522417556774977500 / 2 ^ 54 := by
        rw [e2, e3, e1']
        ring
      have e5 : round64 ((522417556774977500 : ℚ) / 2 ^ 54) =
          8162774324609023 / 2 ^ 48 := by
        have hev := round64_eval_pos (522417556774977500 / 2 ^ 54) 4
          8162774324609023 (by norm_num)
          (by rw [show (4:ℤ) = ((4:ℕ):ℤ) by norm_num, zpow_natCast]
              norm_num)
          (by rw [show (4:ℤ) + 1 = ((5:ℕ):ℤ) by norm_num, zpow_natCast]
              norm_num)
          ?hm2
        · rw [hev, show (4:ℤ) - 52 = -(48:ℕ) by norm_num, zpow_neg, zpow_natCast]
          ring
        · apply rhe_eq_of_lt_half
          · rw [show (4:ℤ) - 52 = -(48:ℕ) by norm_num, zpow_neg, zpow_natCast,
              div_inv_eq_mul, Int.floor_eq_iff]
            norm_num
          · rw [show (4:ℤ) - 52 = -(48:ℕ) by norm_num, zpow_neg, zpow_natCast,
              div_inv_eq_mul]
            norm_num
      rw [e4, e5, ratTrunc_eq_floor _ (by positivity), Int.floor_eq_iff]
      norm_num
    · rw [show (290:ℚ) / 1000 * 100 = ((29:ℤ):ℚ) by norm_num]
      exact Int.floor_intCast 29

/-- Witness for C4 (amended): the spec's own example `add_break(500)` at
16000 Hz, and the float-rounding case 290 ms at 100 Hz. -/
theorem c4_break_truncation_witness :
    (add_break stR16000 500).results = stR16000.results ++
      [BufferEntry.result (.audio stR16000.settings.sample_rate
        (List.replicate ((add_break_num_samples stR16000 500).toNat * 2) 0) 2 1)] ∧
    add_break_num_samples stR16000 500 = 8000 ∧
    add_break_num_samples stR100 290 = 28 :=
  ⟨(c4_break_truncation_amended stR16000 500 (by decide)).1,
   (c4_break_truncation_amended stR16000 500 (by decide)).2.2.1 rfl rfl,
   ((c4_break_truncation_amended stR100 290 (by decide)).2.2.2 rfl rfl).1⟩

/-- A string without `#` splits into itself and the empty suffix. -/
theorem splitOnFirstHash_of_no_hash (s : String)
    (h : strContainsChar s '#' = false) : splitOnFirstHash s = (s, "") := by
  unfold splitOnFirstHash
  rw [splitFirstChar_of_not_contains '#' s.data h]

/-- C7: the voice setter splits on the first `#` into voice key and
speaker; a value different from the previously stored voice key resets the
speaker (it never carries over), the same voice key leaves it unchanged,
and an empty value falls back to the default voice constant; in
particular `"en_US/ljspeech_low#speaker_3"` yields voice key
`"en_US/ljspeech_low"` and speaker `"speaker_3"`. -/
theorem c7_voice_parsing_theorem :
    (∀ st : Mimic3State,
      (set_voice st "en_US/ljspeech_low#speaker_3").settings.voice =
        some "en_US/ljspeech_low" ∧
      (set_voice st "en_US/ljspeech_low#speaker_3").settings.speaker =
        some (Sum.inl "speaker_3")) ∧
    (∀ (st : Mimic3State) (v : String), v ≠ "" →
      (set_voice st v).settings.voice = some (splitOnFirstHash v).1 ∧
      (strContainsChar v '#' = true →
        (set_voice st v).settings.speaker =
          some (Sum.inl (splitOnFirstHash v).2))) ∧
    (∀ (st : Mimic3State) (v : String),
      st.settings.voice = some v → v ≠ "" → strContainsChar v '#' = false →
      (set_voice st v).settings.speaker = st.settings.speaker) ∧
    (∀ (st : Mimic3State) (v : String),
      some v ≠ st.settings.voice → strContainsChar v '#' = false →
      (set_voice st v).settings.speaker = none) ∧
    (∀ st : Mimic3State,
      (set_voice st "").settings.voice = some DEFAULT_VOICE) := by
  refine ⟨?_, ?_, ?_, ?_, ?_⟩
  · intro st
    unfold set_voice
    by_cases h0 : some "en_US/ljspeech_low#speaker_3" ≠ st.settings.voice
    · rw [if_pos h0]
      exact ⟨rfl, rfl⟩
    · rw [if_neg h0]
      exact ⟨rfl, rfl⟩
  · intro st v hv
    unfold set_voice
    have hp : pyOrS v DEFAULT_VOICE = v := by simp [pyOrS, hv]
    rw [hp]
    by_cases hc : strContainsChar v '#' = true
    · by_cases h0 : some v ≠ st.settings.voice
      · rw [if_pos h0]
        simp [hc]
      · rw [if_neg h0]
        simp [hc]
    · have hc' : strContainsChar v '#' = false := by simpa using hc
      have hsplit := splitOnFirstHash_of_no_hash v hc'
      by_cases h0 : some v ≠ st.settings.voice
      · rw [if_pos h0]
        simp [hc', hsplit]
      · rw [if_neg h0]
        simp [hc', hsplit]
  · intro st v hst hv hc
    unfold set_voice
    have hp : pyOrS v DEFAULT_VOICE = v := by simp [pyOrS, hv]
    rw [hp]
    split
    · next hcond => exact absurd hst.symm hcond
    · next =>
      dsimp only
      split
      · next hcT => simp [hc] at hcT
      · next => rfl
  · intro st v h0 hc
    unfold set_voice
    rw [if_pos h0]
    by_cases hv : v = ""
    · subst hv
      have hpd : pyOrS "" DEFAULT_VOICE = DEFAULT_VOICE := rfl
      rw [hpd]
      have hcd : strContainsChar DEFAULT_VOICE '#' = false := by decide
      simp [hcd]
    · have hp : pyOrS v DEFAULT_VOICE = v := by simp [pyOrS, hv]
      rw [hp]
      simp [hc]
  · intro st
    unfold set_voice
    have hpd : pyOrS "" DEFAULT_VOICE = DEFAULT_VOICE := rfl
    rw [hpd]
    have hcd : strContainsChar DEFAULT_VOICE '#' = false := by decide
    by_cases h0 : some "" ≠ st.settings.voice
    · rw [if_pos h0]
      simp [hcd]
    · rw [if_neg h0]
      simp [hcd]

/-- Witness for C7: the spec's example plus speaker persistence on the same
key, speaker reset on a different key, and the empty-value fallback. -/
theorem c7_voice_parsing_witness :
    (set_voice st0 "en_US/ljspeech_low#speaker_3").settings.voice =
      some "en_US/ljspeech_low" ∧
    (set_voice st0 "en_US/ljspeech_low#speaker_3").settings.speaker =
      some (Sum.inl "speaker_3") ∧
    (set_voice stSpk "en_US/low").settings.speaker = stSpk.settings.speaker ∧
    (set_voice stSpk "de_DE/other").settings.speaker = none ∧
    (set_voice st0 "").settings.voice = some DEFAULT_VOICE :=
  ⟨(c7_voice_parsing_theorem.1 st0).1,
   (c7_voice_parsing_theorem.1 st0).2,
   c7_voice_parsing_theorem.2.2.1 stSpk "en_US/low" rfl (by decide) (by decide),
   c7_voice_parsing_theorem.2.2.2.1 stSpk "de_DE/other" (by decide) (by decide),
   c7_voice_parsing_theorem.2.2.2.2 st0⟩

/-- Reading the live settings value through the store. -/
theorem liveSettings_eq (h : HeapState) :
    liveSettings h = (h.store[h.liveId]?).getD {} := by
  simp [liveSettings, List.getD_eq_getElem?_getD]

/-- What one push does to the object store and the buffer: the store grows
by one fresh object holding the live value, the live object and all
existing objects are untouched, and the new run references the fresh
object. -/
theorem pushRun_spec (h : HeapState) (ph : List (List String))
    (hl : h.liveId < h.store.length) :
    (pushRun h ph).liveId = h.liveId ∧
    (pushRun h ph).store.length = h.store.length + 1 ∧
    (∀ i, i < h.store.length → (pushRun h ph).store[i]? = h.store[i]?) ∧
    (pushRun h ph).runsH = h.runsH ++
      [{ settingsId := h.store.length, phonemes := ph, is_utterance := false }] ∧
    (pushRun h ph).store[h.store.length]? = some (liveSettings h) ∧
    liveSettings (pushRun h ph) = liveSettings h := by
  refine ⟨rfl, by simp [pushRun, deepcopySettings], ?_, rfl, ?_, ?_⟩
  · intro i hi
    show (h.store ++ [liveSettings h])[i]? = h.store[i]?
    exact List.getElem?_append_left hi
  · show (h.store ++ [liveSettings h])[h.store.length]? = some (liveSettings h)
    exact List.getElem?_concat_length h.store (liveSettings h)
  · rw [liveSettings_eq, liveSettings_eq]
    show ((h.store ++ [liveSettings h])[h.liveId]?).getD {} = _
    rw [List.getElem?_append_left hl]

/-- The push loop of `speak_text` only appends: the live object keeps its
id and value, existing store objects are untouched, and every newly
appended run references a fresh object (id at or above the old store size)
whose value is the live settings value at push time. -/
theorem speak_text_push_spec :
    ∀ (sents : List (List (List String))) (h : HeapState),
      h.liveId < h.store.length →
      (speak_text_push h sents).liveId = h.liveId ∧
      h.store.length ≤ (speak_text_push h sents).store.length ∧
      (∀ i, i < h.store.length →
        (speak_text_push h sents).store[i]? = h.store[i]?) ∧
      ∃ t, (speak_text_push h sents).runsH = h.runsH ++ t ∧
        ∀ r ∈ t, h.store.length ≤ r.settingsId ∧
          (speak_text_push h sents).store[r.settingsId]? =
            some (liveSettings h) := by
  intro sents
  induction sents with
  | nil =>
    intro h hl
    refine ⟨rfl, le_refl _, fun i _ => rfl, [], by simp [speak_text_push], ?_⟩
    intro r hr
    exact absurd hr (by simp)
  | cons sp rest ih =>
    intro h hl
    obtain ⟨hpl, hplen, hpget, hpruns, hpfresh, hplive⟩ := pushRun_spec h sp hl
    have hl' : (pushRun h sp).liveId < (pushRun h sp).store.length := by
      rw [hpl, hplen]
      exact hl.trans (Nat.lt_succ_self _)
    obtain ⟨ihl, ihlen, ihget, t, ihruns, iht⟩ := ih (pushRun h sp) hl'
    have hlen2 : h.store.length ≤ (speak_text_push (pushRun h sp) rest).store.length := by
      rw [hplen] at ihlen
      omega
    refine ⟨by rw [show speak_text_push h (sp :: rest) =
        speak_text_push (pushRun h sp) rest from rfl, ihl, hpl], hlen2, ?_, ?_⟩
    · intro i hi
      show (speak_text_push (pushRun h sp) rest).store[i]? = h.store[i]?
      rw [ihget i (by rw [hplen]; omega), hpget i hi]
    · refine ⟨HeapPhonemes.mk h.store.length sp false :: t, ?_, ?_⟩
      · show (speak_text_push (pushRun h sp) rest).runsH = _
        rw [ihruns, hpruns]
        simp
      · intro r hr
        rcases List.mem_cons.mp hr with hr | hr
        · subst hr
          refine ⟨le_refl _, ?_⟩
          show (speak_text_push (pushRun h sp) rest).store[h.store.length]? = _
          rw [ihget h.store.length (by rw [hplen]; omega), hpfresh]
        · obtain ⟨hge, hval⟩ := iht r hr
          rw [hplen] at hge
          refine ⟨by omega, ?_⟩
          show (speak_text_push (pushRun h sp) rest).store[r.settingsId]? = _
          rw [hval, hplive]

/-- Mutating the live settings object touches no other store object. -/
theorem mutate_getElem?_of_ne (h : HeapState)
    (f : Mimic3Settings → Mimic3Settings) (i : Nat) (hne : i ≠ h.liveId) :
    (mutateSettings h f).store[i]? = h.store[i]? := by
  show (h.store.set h.liveId _)[i]? = h.store[i]?
  rw [List.getElem?_set_ne (fun hc => hne hc.symm)]

/-- C8: every pending run appended by the `speak_text` push loop or the
`speak_tokens` push records a settings snapshot captured by copy at push
time: its recorded settings equal the live settings value at the moment of
the push, and mutating any fields of the live settings object afterwards
leaves the recorded snapshot unchanged. -/
theorem c8_snapshot_theorem :
    (∀ (h : HeapState) (sents : List (List (List String)))
       (f : Mimic3Settings → Mimic3Settings),
      h.liveId < h.store.length →
      ∀ r ∈ (speak_text_push h sents).runsH.drop h.runsH.length,
        recordedSettings (speak_text_push h sents) r = some (liveSettings h) ∧
        recordedSettings (mutateSettings (speak_text_push h sents) f) r =
          some (liveSettings h)) ∧
    (∀ (h : HeapState) (tp : List (List String))
       (f : Mimic3Settings → Mimic3Settings),
      h.liveId < h.store.length →
      ∀ r ∈ (speak_tokens_push h tp).runsH.drop h.runsH.length,
        recordedSettings (speak_tokens_push h tp) r = some (liveSettings h) ∧
        recordedSettings (mutateSettings (speak_tokens_push h tp) f) r =
          some (liveSettings h)) := by
  constructor
  · intro h sents f hl r hr
    obtain ⟨hliv, hlen, hget, t, hruns, ht⟩ := speak_text_push_spec sents h hl
    rw [hruns, List.drop_left] at hr
    obtain ⟨hge, hval⟩ := ht r hr
    have hne : r.settingsId ≠ (speak_text_push h sents).liveId := by
      rw [hliv]
      omega
    refine ⟨hval, ?_⟩
    show (mutateSettings (speak_text_push h sents) f).store[r.settingsId]? = _
    rw [mutate_getElem?_of_ne _ f _ hne]
    exact hval
  · intro h tp f hl r hr
    unfold speak_tokens_push at hr ⊢
    by_cases htp : tp = []
    · rw [if_pos htp, List.drop_length] at hr
      exact absurd hr (by simp)
    · rw [if_neg htp] at hr ⊢
      obtain ⟨hpl, hplen, hpget, hpruns, hpfresh, hplive⟩ := pushRun_spec h tp hl
      rw [hpruns, List.drop_left] at hr
      have hr' := List.mem_singleton.mp hr
      subst hr'
      have hne : (HeapPhonemes.mk h.store.length tp false).settingsId ≠
          (pushRun h tp).liveId := by
        rw [hpl]
        intro hc
        simp at hc
        omega
      refine ⟨hpfresh, ?_⟩
      show (mutateSettings (pushRun h tp) f).store[h.store.length]? = _
      rw [mutate_getElem?_of_ne _ f _ hne]
      exact hpfresh

/-- Witness for C8: one sentence pushed from `hp0`, then the live
`sample_rate` mutated — the buffered run still records the push-time
settings value. -/
theorem c8_snapshot_witness :
    recordedSettings (speak_text_push hp0 [[["a"]]])
      (HeapPhonemes.mk 1 [["a"]] false) = some (liveSettings hp0) ∧
    recordedSettings (mutateSettings (speak_text_push hp0 [[["a"]]])
      (fun s => { s with sample_rate := 999 }))
      (HeapPhonemes.mk 1 [["a"]] false) = some (liveSettings hp0) :=
  c8_snapshot_theorem.1 hp0 [[["a"]]] (fun s => { s with sample_rate := 999 })
    (by decide) (HeapPhonemes.mk 1 [["a"]] false) (by decide)

/-- Counterexample for C3: with the catalog `[de_DE/xlow, en_US/low]` (both
local), resolving the canonical key `en_US/low` and then its bare short
name `low` does NOT return the identical handle: the suffix scan matches
`de_DE/xlow` first, so a second load happens and a different handle is
returned. -/
theorem c3_alias_counterexample :
    (_get_or_load_voice envC3 st0 "en_US/low").1 =
      .ok (Mimic3Voice.mk 0 ["v", "en_US", "low"]) ∧
    (_get_or_load_voice envC3
        ((_get_or_load_voice envC3 st0 "en_US/low").2) "low").1 =
      .ok (Mimic3Voice.mk 1 ["v", "de_DE", "xlow"]) ∧
    Mimic3Voice.mk 0 ["v", "en_US", "low"] ≠
      Mimic3Voice.mk 1 ["v", "de_DE", "xlow"] ∧
    ((_get_or_load_voice envC3
        ((_get_or_load_voice envC3 st0 "en_US/low").2) "low").2).nextVoiceId
      = 2 := by
  refine ⟨by decide, by decide, by decide, by decide⟩

/-- C3 (amended): provided the bare short name's *first* suffix match in
the catalog is the same voice directory that the canonical key resolved to
(the suffix scan is first-match-wins, so another voice whose key also ends
with the short name may otherwise win), resolving the canonical key and
then the bare short name returns the identical loaded handle with no
second load, after which the short name, the requested key and the
canonical key are all exact cache hits; and resolution preserves the cache
invariant that every cached handle is also cached under its own canonical
key — hence at most one loaded handle exists per canonical key, with any
number of alias keys mapping to that same handle. -/
theorem c3_alias_cache_amended :
    (∀ (env : Env) (st : Mimic3State) (K short : String) (dir : List String),
      lookupVoice st.loaded_voices K = none →
      findModelDir env st K env.getVoices = .ok (some dir) →
      lookupVoice st.loaded_voices (canonicalKeyOf dir) = none →
      env.loadVoice dir = .ok () →
      lookupVoice ((_get_or_load_voice env st K).2).loaded_voices short = none →
      findModelDir env ((_get_or_load_voice env st K).2) short env.getVoices =
        .ok (some dir) →
      (_get_or_load_voice env st K).1 =
        .ok (Mimic3Voice.mk st.nextVoiceId dir) ∧
      (_get_or_load_voice env ((_get_or_load_voice env st K).2) short).1 =
        .ok (Mimic3Voice.mk st.nextVoiceId dir) ∧
      ((_get_or_load_voice env ((_get_or_load_voice env st K).2) short).2).nextVoiceId
          = ((_get_or_load_voice env st K).2).nextVoiceId ∧
      lookupVoice
          ((_get_or_load_voice env ((_get_or_load_voice env st K).2) short).2).loaded_voices
          short = some (Mimic3Voice.mk st.nextVoiceId dir) ∧
      lookupVoice
          ((_get_or_load_voice env ((_get_or_load_voice env st K).2) short).2).loaded_voices
          K = some (Mimic3Voice.mk st.nextVoiceId dir) ∧
      lookupVoice
          ((_get_or_load_voice env ((_get_or_load_voice env st K).2) short).2).loaded_voices
          (canonicalKeyOf dir) = some (Mimic3Voice.mk st.nextVoiceId dir)) ∧
    (∀ (env : Env) (st : Mimic3State) (key : String),
      cacheInv st.loaded_voices →
      cacheInv ((_get_or_load_voice env st key).2).loaded_voices) ∧
    (∀ (c : List (String × Mimic3Voice)) (k1 k2 : String) (v1 v2 : Mimic3Voice),
      cacheInv c → lookupVoice c k1 = some v1 → lookupVoice c k2 = some v2 →
      canonicalKeyOf v1.model_dir = canonicalKeyOf v2.model_dir → v1 = v2) := by
  refine ⟨?_, ?_, ?_⟩
  · intro env st K short dir hK hf1 hcan hload hshort hf2
    have h1 := resolve_fresh env st K dir hK hf1 hcan hload
    rw [h1] at hshort hf2 ⊢
    dsimp only at hshort hf2 ⊢
    have hcan1 : lookupVoice
        (insertVoice (insertVoice st.loaded_voices K
          (Mimic3Voice.mk st.nextVoiceId dir))
          (canonicalKeyOf dir) (Mimic3Voice.mk st.nextVoiceId dir))
        (canonicalKeyOf dir) = some (Mimic3Voice.mk st.nextVoiceId dir) := by
      rw [lookupVoice_insert]
      simp
    have h2 := resolve_alias env _ short dir (Mimic3Voice.mk st.nextVoiceId dir)
      hshort hf2 hcan1
    rw [h2]
    dsimp only
    refine ⟨rfl, rfl, rfl, ?_, ?_, ?_⟩
    · rw [lookupVoice_insert]
      simp
    · rw [lookupVoice_insert, lookupVoice_insert, lookupVoice_insert]
      by_cases h3 : short = K
      · simp [h3]
      · by_cases h4 : canonicalKeyOf dir = K <;> simp [h3, h4]
    · rw [lookupVoice_insert, lookupVoice_insert]
      by_cases h3 : short = canonicalKeyOf dir <;> simp [h3]
  · intro env st key hinv
    rcases hl : lookupVoice st.loaded_voices key with _ | v
    · rcases hf : findModelDir env st key env.getVoices with e | md
      · rw [resolve_scan_raises env st key e hl hf]
        exact hinv
      · rcases md with _ | dir
        · rw [resolve_not_found env st key hl hf]
          exact hinv
        · rcases hc : lookupVoice st.loaded_voices (canonicalKeyOf dir) with _ | ex
          · rcases hlv : env.loadVoice dir with e | u
            · rw [resolve_load_raises env st key dir e hl hf hc hlv]
              exact hinv
            · cases u
              rw [resolve_fresh env st key dir hl hf hc hlv]
              intro k0 v0 h0
              rw [lookupVoice_insert] at h0
              by_cases hck : canonicalKeyOf dir = k0
              · rw [if_pos hck] at h0
                have hv0 : v0 = Mimic3Voice.mk st.nextVoiceId dir :=
                  (Option.some.inj h0).symm
                subst hv0
                simp [lookupVoice_insert]
              · rw [if_neg hck, lookupVoice_insert] at h0
                by_cases hkk : key = k0
                · rw [if_pos hkk] at h0
                  have hv0 : v0 = Mimic3Voice.mk st.nextVoiceId dir :=
                    (Option.some.inj h0).symm
                  subst hv0
                  simp [lookupVoice_insert]
                · rw [if_neg hkk] at h0
                  have hcv := hinv k0 v0 h0
                  rw [lookupVoice_insert, lookupVoice_insert]
                  by_cases h2 : canonicalKeyOf dir = canonicalKeyOf v0.model_dir
                  · rw [← h2] at hcv
                    rw [hc] at hcv
                    exact Option.noConfusion hcv
                  · by_cases h3 : key = canonicalKeyOf v0.model_dir
                    · rw [← h3] at hcv
                      rw [hl] at hcv
                      exact Option.noConfusion hcv
                    · rw [if_neg h2, if_neg h3]
                      exact hcv
          · rw [resolve_alias env st key dir ex hl hf hc]
            intro k0 v0 h0
            rw [lookupVoice_insert] at h0
            by_cases hkk : key = k0
            · rw [if_pos hkk] at h0
              have hv0 : v0 = ex := (Option.some.inj h0).symm
              subst hv0
              have hce := hinv (canonicalKeyOf dir) v0 hc
              rw [lookupVoice_insert]
              by_cases h2 : key = canonicalKeyOf v0.model_dir
              · rw [if_pos h2]
              · rw [if_neg h2]
                exact hce
            · rw [if_neg hkk] at h0
              have hcv := hinv k0 v0 h0
              rw [lookupVoice_insert]
              by_cases h2 : key = canonicalKeyOf v0.model_dir
              · rw [← h2] at hcv
                rw [hl] at hcv
                exact Option.noConfusion hcv
              · rw [if_neg h2]
                exact hcv
    · rw [resolve_hit env st key v hl]
      exact hinv
  · intro c k1 k2 v1 v2 hinv h1 h2 hcc
    have e1 := hinv k1 v1 h1
    have e2 := hinv k2 v2 h2
    rw [hcc] at e1
    rw [e2] at e1
    exact (Option.some.inj e1).symm

/-- Witness for C3 (amended): in the one-voice catalog, `en_US/low` then
`low` share one handle with no second load, all three keys hit, and the
cache invariant holds after resolution. -/
theorem c3_alias_cache_witness :
    ((_get_or_load_voice envW st0 "en_US/low").1 =
        .ok (Mimic3Voice.mk st0.nextVoiceId ["voices", "en_US", "low"]) ∧
      (_get_or_load_voice envW
          ((_get_or_load_voice envW st0 "en_US/low").2) "low").1 =
        .ok (Mimic3Voice.mk st0.nextVoiceId ["voices", "en_US", "low"]) ∧
      ((_get_or_load_voice envW
          ((_get_or_load_voice envW st0 "en_US/low").2) "low").2).nextVoiceId
        = ((_get_or_load_voice envW st0 "en_US/low").2).nextVoiceId ∧
      lookupVoice ((_get_or_load_voice envW
          ((_get_or_load_voice envW st0 "en_US/low").2) "low").2).loaded_voices
        "low" = some (Mimic3Voice.mk st0.nextVoiceId ["voices", "en_US", "low"]) ∧
      lookupVoice ((_get_or_load_voice envW
          ((_get_or_load_voice envW st0 "en_US/low").2) "low").2).loaded_voices
        "en_US/low" =
          some (Mimic3Voice.mk st0.nextVoiceId ["voices", "en_US", "low"]) ∧
      lookupVoice ((_get_or_load_voice envW
          ((_get_or_load_voice envW st0 "en_US/low").2) "low").2).loaded_voices
        (canonicalKeyOf ["voices", "en_US", "low"]) =
          some (Mimic3Voice.mk st0.nextVoiceId ["voices", "en_US", "low"])) ∧
    cacheInv ((_get_or_load_voice envW st0 "en_US/low").2).loaded_voices :=
  ⟨c3_alias_cache_amended.1 envW st0 "en_US/low" "low" ["voices", "en_US", "low"]
     (by decide) (by decide) (by decide) (by decide) (by decide) (by decide),
   c3_alias_cache_amended.2.1 envW st0 "en_US/low"
     (by intro k v h; simp [st0, lookupVoice] at h)⟩
